import Mathlib

/-
  Verification development for the dicomsort repository
  (src/dicomsort/dicomsorter.py).

  The Python source is shallowly embedded: the pydicom dataset becomes an
  association list of attribute values, Python exceptions become an explicit
  `Except PyErr` result, and the in-place mutations of the dataset are made
  explicit by threading the dataset state through the functions.  The module
  `dicomsort.utils` and the `os`/`shutil` library calls are not part of the
  given source tree; the definitions embedding them carry a doc comment
  starting with `Modelled from the spec:` and follow the specification text.
-/

set_option maxHeartbeats 1000000

namespace DicomSort

/-- Decidable equality for `Except`, so that concrete runs of the embedded
code can be checked by `decide`. -/
instance instDecidableEqExcept {ε α : Type} [DecidableEq ε] [DecidableEq α] :
    DecidableEq (Except ε α) := fun a b =>
  match a, b with
  | .ok x, .ok y =>
    if h : x = y then .isTrue (by rw [h]) else .isFalse (by intro hc; cases hc; exact h rfl)
  | .error x, .error y =>
    if h : x = y then .isTrue (by rw [h]) else .isFalse (by intro hc; cases hc; exact h rfl)
  | .ok _, .error _ => .isFalse (by intro hc; cases hc)
  | .error _, .ok _ => .isFalse (by intro hc; cases hc)

/-- Kinds of Python exceptions raised by the embedded code.  `fsLoopFuel` is a
modelling artifact for the fuel of the destination-collision loop; it is proved
unreachable. -/
inductive PyErr where
  | keyError
  | attributeError
  | typeError
  | valueError
  | indexError
  | ioError
  | fsLoopFuel
  deriving DecidableEq

/-- A value stored in a DICOM attribute: a string, an integer (pydicom IS
values), or a multi-valued list of strings (e.g. ImageType). -/
inductive Value where
  | str (s : String)
  | intv (n : Int)
  | strList (l : List String)
  deriving DecidableEq

/-- Replace the first binding of key `k` in an association list, or append a
binding at the end.  This is the embedding of assignment into a Python dict
(and of assigning a pydicom data element). -/
def setAssoc {α : Type} : List (String × α) → String → α → List (String × α)
  | [], k, v => [(k, v)]
  | (k', v') :: rest, k, v =>
    if k' = k then (k, v) :: rest else (k', v') :: setAssoc rest k v

/-- Remove every binding of key `k` (an association list representing a dict
has at most one). -/
def removeAssoc {α : Type} (l : List (String × α)) (k : String) : List (String × α) :=
  l.filter (fun kv => !(kv.1 == k))

/-- The structured metadata object produced by the external parser
(`pydicom.read_file`): named attributes plus the filename recorded on the
dataset. -/
structure DataSet where
  attrs : List (String × Value)
  filename : String
  deriving DecidableEq

/-- Embedding of Python attribute access `ds.Name`: raises `AttributeError`
when the attribute is absent. -/
def DataSet.getattr (d : DataSet) (a : String) : Except PyErr Value :=
  match d.attrs.lookup a with
  | some v => .ok v
  | none => .error .attributeError

/-- Embedding of `hasattr(ds, name)` and of pydicom's `name in ds`. -/
def DataSet.hasattr (d : DataSet) (a : String) : Bool :=
  (d.attrs.lookup a).isSome

/-- Embedding of attribute assignment `ds.Name = v`. -/
def DataSet.setattr (d : DataSet) (a : String) (v : Value) : DataSet :=
  { d with attrs := setAssoc d.attrs a v }

/-- Left-pad a string with zeros up to width `w` (helper for `%0Nd`). -/
def zeroPad (w : Nat) (s : String) : String :=
  String.mk (List.replicate (w - s.length) '0') ++ s

/-- Embedding of the printf conversion `%0Nd` applied to an integer: total
width `w`, zero padding inserted between the sign and the digits. -/
def format0d (w : Nat) (n : Int) : String :=
  if n < 0 then "-" ++ zeroPad (w - 1) (toString (-n)) else zeroPad w (toString n)

/-- Embedding of Python `str()` on an attribute value (used by `%s`). -/
def pyStr (v : Value) : String :=
  match v with
  | .str s => s
  | .intv n => toString n
  | .strList l =>
    "[" ++ String.intercalate ", "
      (l.map (fun s => String.singleton (Char.ofNat 39) ++ s ++ String.singleton (Char.ofNat 39)))
      ++ "]"

/-- Embedding of the printf conversion `%d`: requires an integer operand,
raising `TypeError` otherwise. -/
def asInt (v : Value) : Except PyErr Int :=
  match v with
  | .intv n => .ok n
  | _ => .error .typeError

/-- A value used where Python subscripts it as a string (`v[4:]`): a
non-string operand raises `TypeError`. -/
def asStr (v : Value) : Except PyErr String :=
  match v with
  | .str s => .ok s
  | _ => .error .typeError

/-- Accumulate a decimal digit string; any non-digit character fails. -/
def parseDigitsAux (acc : Nat) : List Char → Option Nat
  | [] => some acc
  | c :: cs =>
    if c.isDigit then parseDigitsAux (acc * 10 + (c.toNat - 48)) cs else none

/-- Embedding of Python `int()` on a string: an optional sign followed by at
least one decimal digit; anything else is unparsable. -/
def pyParseInt (s : String) : Option Int :=
  match s.data with
  | [] => none
  | '-' :: cs =>
    match cs with
    | [] => none
    | _ => (parseDigitsAux 0 cs).map (fun n => -(n : Int))
  | '+' :: cs =>
    match cs with
    | [] => none
    | _ => (parseDigitsAux 0 cs).map (fun n => (n : Int))
  | cs => (parseDigitsAux 0 cs).map (fun n => (n : Int))

/-- Embedding of Python `int(v)`: integers pass through, strings are parsed
(`ValueError` when unparsable), lists raise `TypeError`. -/
def pyIntOfValue (v : Value) : Except PyErr Int :=
  match v with
  | .intv n => .ok n
  | .str s =>
    match pyParseInt s with
    | some n => .ok n
    | none => .error .valueError
  | .strList _ => .error .typeError

/-- Structural embedding of `str.startswith` (kernel-evaluable). -/
def strStartsWith (s pre : String) : Bool :=
  pre.data.isPrefixOf s.data

/-- Structural embedding of `str.endswith` (kernel-evaluable). -/
def strEndsWith (s suf : String) : Bool :=
  suf.data.reverse.isPrefixOf s.data.reverse

/-- Split a character list on a separator character. -/
def splitOnCharAux : List Char → Char → List (List Char)
  | [], _ => [[]]
  | c :: rest, sep =>
    match splitOnCharAux rest sep with
    | [] => [[]]
    | grp :: rest' => if c = sep then [] :: grp :: rest' else (c :: grp) :: rest'

/-- Structural embedding of splitting a string on a one-character separator
(the behaviour of Python `str.split(sep)` used on path separators). -/
def strSplitOn (s : String) (sep : Char) : List String :=
  (splitOnCharAux s.data sep).map (fun l => String.mk l)

/-- Structural embedding of Python `str.strip()`. -/
def strTrim (s : String) : String :=
  String.mk (((s.data.dropWhile Char.isWhitespace).reverse.dropWhile
    Char.isWhitespace).reverse)

/-- Drop trailing characters satisfying `p`. -/
def dropTrailing (s : String) (p : Char → Bool) : String :=
  String.mk ((s.data.reverse.dropWhile p).reverse)

/-- One piece of a pre-parsed printf-style template: a literal, a `%(name)s`
token, or a `%(name)0Nd` token. -/
inductive Piece where
  | lit (s : String)
  | tokS (field : String)
  | tokD (field : String) (width : Nat)
  deriving DecidableEq

/-- A template is a parsed sequence of pieces. -/
abbrev Template := List Piece

/-- The raw string a parsed template came from (inverse of parsing); used where
the Python code compares the template string against `''`. -/
def templateToString (t : Template) : String :=
  String.join (t.map (fun p =>
    match p with
    | .lit s => s
    | .tokS f => "%(" ++ f ++ ")s"
    | .tokD f w => "%(" ++ f ++ ")0" ++ toString w ++ "d"))

/-- An entry of the override dictionary `self.overrides`: either a constant
replacement value supplied through the anonymization dictionary (stored as the
template string that will be rendered at write time), or one of the three
bound methods installed by `create_default_overrides`. -/
inductive Override where
  | const (t : Template)
  | imageType
  | fileExtension
  | seriesDescription
  deriving DecidableEq

/-- The dictionary built by `Dicom.create_default_overrides`. -/
def defaultOverrides : List (String × Override) :=
  [("ImageType", .imageType),
   ("FileExtension", .fileExtension),
   ("SeriesDescription", .seriesDescription)]

/-- Embedding of the `Dicom` wrapper object: `self.filename`, `self.dicom`,
`self.seriesFirst`, `self.overrides` and `self.anondict`. -/
structure Dicom where
  filename : String
  dicom : DataSet
  seriesFirst : Bool
  overrides : List (String × Override)
  anondict : List (String × Template)
  deriving DecidableEq

/-- Embedding of `Dicom.__init__` (with the dataset supplied by the caller, as
on the `Sorter` path): `seriesFirst = False` and the default overrides
installed. -/
def Dicom.init (filename : String) (ds : DataSet) : Dicom :=
  { filename := filename
    dicom := ds
    seriesFirst := false
    overrides := defaultOverrides
    anondict := [] }

/-- The final component of a path, `os.path.split(p)[1]`. -/
def basename (p : String) : String :=
  (strSplitOn p '/').getLastD p

/-- The extension part of `os.path.splitext`: the substring from the last dot
of the basename, except that a basename consisting only of dots before that
position has no extension. -/
def splitextExt (p : String) : String :=
  let l := (basename p).data
  match l.reverse.findIdx? (fun c => c = '.') with
  | none => ""
  | some j =>
    let k := l.length - 1 - j
    if (l.take k).all (fun c => c = '.') then ""
    else String.mk ('.' :: l.drop (k + 1))

/-- Embedding of `Dicom._get_file_extension`: the extension of
`self.dicom.filename`. -/
def Dicom.get_file_extension (dc : Dicom) : Except PyErr Value :=
  .ok (.str (splitextExt dc.dicom.filename))

/-- Embedding of `Dicom._get_series_description`: synthesize
`Series%04d` when the description is missing, otherwise combine description
and series number in the order selected by `seriesFirst`, stripping
surrounding whitespace. -/
def Dicom.get_series_description (dc : Dicom) : Except PyErr Value :=
  if !dc.dicom.hasattr "SeriesDescription" then
    match dc.dicom.getattr "SeriesNumber" with
    | .error e => .error e
    | .ok sn =>
      match asInt sn with
      | .error e => .error e
      | .ok n => .ok (.str (strTrim ("Series" ++ format0d 4 n)))
  else
    match dc.dicom.getattr "SeriesNumber" with
    | .error e => .error e
    | .ok sn =>
      match asInt sn with
      | .error e => .error e
      | .ok n =>
        match dc.dicom.getattr "SeriesDescription" with
        | .error e => .error e
        | .ok sd =>
          if dc.seriesFirst then
            .ok (.str (strTrim ("Series" ++ format0d 4 n ++ "_" ++ pyStr sd)))
          else
            .ok (.str (strTrim (pyStr sd ++ "_Series" ++ format0d 4 n)))

/-- Embedding of `Dicom._get_patient_age`: prefer the existing `PatientAge`;
with no (or an empty) birth date the age is the empty string; otherwise the
study date is read (an absent `StudyDate` raises `AttributeError`) and the age
is the Python 2 floor quotient `(int(StudyDate) - int(PatientBirthDate)) /
10000` rendered through `'%03dY'`. -/
def DataSet.get_patient_age (d : DataSet) : Except PyErr Value :=
  if d.hasattr "PatientAge" then d.getattr "PatientAge"
  else if !d.hasattr "PatientBirthDate" then .ok (.str "")
  else
    match d.getattr "PatientBirthDate" with
    | .error e => .error e
    | .ok pbd =>
      if pbd = .str "" then .ok (.str "")
      else
        match d.getattr "StudyDate" with
        | .error e => .error e
        | .ok sd =>
          match pyIntOfValue sd with
          | .error e => .error e
          | .ok si =>
            match pyIntOfValue pbd with
            | .error e => .error e
            | .ok bi => .ok (.str (format0d 3 (Int.fdiv (si - bi) 10000) ++ "Y"))

/-- The rule table of `Dicom._get_image_type`.  In the source it is a Python 2
dict iterated with `iteritems()`, whose iteration order is unspecified; this
list records the table in its textual order and the classifier below is
parameterized by the iteration order actually used. -/
def imageTypeRules : List (String × List String) :=
  [("Phase", ["P"]),
   ("3DRecon", ["CSA 3D EDITOR"]),
   ("Phoenix", ["CSA REPORT"]),
   ("Mag", ["FFE", "M"])]

/-- Embedding of Python `set(v)` as used on the `ImageType` value: a list
value gives its elements, a string gives its characters, an integer raises
`TypeError`. -/
def pySet (v : Value) : Except PyErr (List String) :=
  match v with
  | .strList l => .ok l
  | .str s => .ok (s.data.map (fun c => String.singleton c))
  | .intv _ => .error .typeError

/-- The match loop of `Dicom._get_image_type`: first rule (in the given
iteration order) whose tag set is a subset of the image's tag set wins; the
`'3DRecon'` match additionally overwrites `InstanceNumber` with
`SeriesNumber` (raising `AttributeError` when `SeriesNumber` is absent); no
match yields `"Image"`. -/
def imageTypeGo (d : DataSet) (imType : List String) :
    List (String × List String) → Except PyErr (Value × DataSet)
  | [] => .ok (.str "Image", d)
  | (name, m) :: rest =>
    if m.all (fun t => imType.contains t) then
      if name = "3DRecon" then
        match d.getattr "SeriesNumber" with
        | .error e => .error e
        | .ok sn => .ok (.str name, d.setattr "InstanceNumber" sn)
      else .ok (.str name, d)
    else imageTypeGo d imType rest

/-- Embedding of `Dicom._get_image_type` with an explicit rule iteration
order: an absent `ImageType` attribute is caught (`except AttributeError`) and
classified `"Unknown"`; otherwise the tag set is matched by `imageTypeGo`. -/
def get_image_type_aux (rules : List (String × List String)) (d : DataSet) :
    Except PyErr (Value × DataSet) :=
  match d.getattr "ImageType" with
  | .error .attributeError => .ok (.str "Unknown", d)
  | .error e => .error e
  | .ok v =>
    match pySet v with
    | .error e => .error e
    | .ok imType => imageTypeGo d imType rules

/-- `Dicom._get_image_type` at the rule table's textual order. -/
def Dicom.get_image_type (dc : Dicom) : Except PyErr (Value × DataSet) :=
  get_image_type_aux imageTypeRules dc.dicom

/-- Evaluate one entry of the override dictionary: a constant is returned as
the string it parses from; a bound method is invoked (only `_get_image_type`
mutates the dataset). -/
def evalOverride (dc : Dicom) (ov : Override) : Except PyErr (Value × DataSet) :=
  match ov with
  | .const t => .ok (.str (templateToString t), dc.dicom)
  | .fileExtension =>
    match dc.get_file_extension with
    | .error e => .error e
    | .ok v => .ok (v, dc.dicom)
  | .seriesDescription =>
    match dc.get_series_description with
    | .error e => .error e
    | .ok v => .ok (v, dc.dicom)
  | .imageType => dc.get_image_type

/-- Embedding of `Dicom.__getitem__`: the override dictionary is consulted
first and a callable entry is invoked; a `KeyError` (from the dictionary
lookup, or escaping the callable) falls back to the raw attribute of the
wrapped dataset. -/
def Dicom.getitem (dc : Dicom) (attr : String) : Except PyErr (Value × DataSet) :=
  match dc.overrides.lookup attr with
  | some ov =>
    match evalOverride dc ov with
    | .error .keyError =>
      match dc.dicom.getattr attr with
      | .error e => .error e
      | .ok v => .ok (v, dc.dicom)
    | r => r
  | none =>
    match dc.dicom.getattr attr with
    | .error e => .error e
    | .ok v => .ok (v, dc.dicom)

/-- Python dict equality for association lists: the same keys bound to the
same values (first binding wins, matching `List.lookup`). -/
def dictBeq {α : Type} [DecidableEq α] (l1 l2 : List (String × α)) : Bool :=
  l1.all (fun kv => l2.lookup kv.1 = l1.lookup kv.1) &&
    l2.all (fun kv => (l1.lookup kv.1).isSome)

/-- Embedding of `Dicom.is_anonymous`: `self.default_overrides !=
self.overrides`. -/
def Dicom.is_anonymous (dc : Dicom) : Bool :=
  !(dictBeq defaultOverrides dc.overrides)

/-- Embedding of `dict(base, **upd)`: copy `base`, then assign each binding of
`upd` in order. -/
def updateDict {α : Type} (base upd : List (String × α)) : List (String × α) :=
  upd.foldl (fun acc kv => setAssoc acc kv.1 kv.2) base

/-- Rebuild `self.overrides = dict(self.default_overrides, **anondict)` from
the current `anondict` (whose values enter the dictionary as constants). -/
def installOverrides (dc : Dicom) : Dicom :=
  { dc with overrides :=
      updateDict defaultOverrides (dc.anondict.map (fun kv => (kv.1, Override.const kv.2))) }

/-- The age-capture step of `Dicom.SetAnonRules`: when both `PatientAge` and
`StudyDate` are present, `self.dicom.PatientAge` is overwritten with the value
of `_get_patient_age`. -/
def ageCapture (dc : Dicom) : Except PyErr Dicom :=
  if dc.dicom.hasattr "PatientAge" && dc.dicom.hasattr "StudyDate" then
    match dc.dicom.get_patient_age with
    | .error e => .error e
    | .ok v => .ok { dc with dicom := dc.dicom.setattr "PatientAge" v }
  else .ok dc

/-- The birthday-preserving year shift of `Dicom.SetAnonRules` (lines
164-178): compare the month-day digits of the study date against those of the
birth date and produce `year + "0101"` or `(year+1) + "0101"`. -/
def computeNewBirth (d : DataSet) : Except PyErr String :=
  match d.getattr "PatientBirthDate" with
  | .error e => .error e
  | .ok pbdv =>
    match asStr pbdv with
    | .error e => .error e
    | .ok pbd =>
      match d.getattr "StudyDate" with
      | .error e => .error e
      | .ok sdv =>
        match asStr sdv with
        | .error e => .error e
        | .ok sd =>
          match pyParseInt (pbd.drop 4) with
          | none => .error .valueError
          | some birthRest =>
            match pyParseInt (sd.drop 4) with
            | none => .error .valueError
            | some studyRest =>
              if studyRest ≥ birthRest then .ok (pbd.take 4 ++ "0101")
              else
                match pyParseInt (pbd.take 4) with
                | none => .error .valueError
                | some byear => .ok (toString (byear + 1) ++ "0101")

/-- Embedding of `Dicom.SetAnonRules`: store the anonymization dictionary;
when it maps `PatientBirthDate` to the empty replacement and the record holds
a non-empty birth date, capture the age and install the shifted birth date
computed by `computeNewBirth` (only when `StudyDate` is present); finally
merge `dict(self.default_overrides, **anondict)` into `self.overrides`. -/
def Dicom.SetAnonRules (dc : Dicom) (anondict : List (String × Template)) :
    Except PyErr Dicom :=
  let dc := { dc with anondict := anondict }
  match anondict.lookup "PatientBirthDate" with
  | none => .ok (installOverrides dc)
  | some t =>
    if t ≠ ([] : Template) then .ok (installOverrides dc)
    else
      match dc.dicom.getattr "PatientBirthDate" with
      | .error e => .error e
      | .ok pbd =>
        if pbd = .str "" then .ok (installOverrides dc)
        else
          match ageCapture dc with
          | .error e => .error e
          | .ok dc =>
            if dc.dicom.hasattr "StudyDate" then
              match computeNewBirth dc.dicom with
              | .error e => .error e
              | .ok nb =>
                .ok (installOverrides
                  { dc with anondict := setAssoc dc.anondict "PatientBirthDate" [Piece.lit nb] })
            else .ok (installOverrides dc)

/-- Modelled from the spec: `os.path.join(a, b)` for two components — an
absolute second component replaces the first, otherwise the components are
joined with a single separator. -/
def joinPath (a b : String) : String :=
  if strStartsWith b "/" then b
  else if a = "" || strEndsWith a "/" then a ++ b
  else a ++ "/" ++ b

/-- Modelled from the spec: `os.path.dirname(p)` — everything up to the last
separator, with trailing separators stripped unless the head is all
separators. -/
def dirnameP (p : String) : String :=
  let parts := strSplitOn p '/'
  if parts.length ≤ 1 then ""
  else
    let head := String.intercalate "/" parts.dropLast ++ "/"
    if head.data.all (fun c => c = '/') then head
    else dropTrailing head (fun c => c = '/')

/-- Length of the common prefix of two component lists. -/
def commonPrefixLen : List String → List String → Nat
  | a :: as, b :: bs => if a = b then commonPrefixLen as bs + 1 else 0
  | _, _ => 0

/-- Modelled from the spec: `os.path.relpath(path, start)` for normalized
absolute paths — drop the common leading components and climb out of the
remaining components of `start` with `".."`. -/
def relpath (path start : String) : String :=
  let pParts := (strSplitOn path '/').filter (fun s => s ≠ "")
  let sParts := (strSplitOn start '/').filter (fun s => s ≠ "")
  let i := commonPrefixLen sParts pParts
  let rel := List.replicate (sParts.length - i) ".." ++ pParts.drop i
  if rel = [] then "." else String.intercalate "/" rel

/-- Modelled from the spec: `utils.clean_directory_name` — remove
filesystem-illegal characters (separators and reserved characters) from a
directory segment. -/
def clean_directory_name (s : String) : String :=
  String.mk (s.data.filter (fun c =>
    !(c = '/' || c = '\\' || c = ':' || c = '*' || c = '?' ||
      c = '<' || c = '>' || c = '|' || c = '"')))

/-- Modelled from the spec: `utils.clean_path` — sanitize a filename, keeping
it free of reserved characters. -/
def clean_path (s : String) : String :=
  String.mk (s.data.filter (fun c =>
    !(c = '\\' || c = ':' || c = '*' || c = '?' ||
      c = '<' || c = '>' || c = '|' || c = '"')))

/-- Render one template piece against the resolver: a token resolves its
field through `Dicom.getitem` and formats it (`%s` via `pyStr`, `%0Nd` via
`format0d` after a `TypeError` check). -/
def renderPiece (p : Piece) (dc : Dicom) : Except PyErr String × Dicom :=
  match p with
  | .lit s => (.ok s, dc)
  | .tokS f =>
    match dc.getitem f with
    | .error e => (.error e, dc)
    | .ok (v, ds) => (.ok (pyStr v), { dc with dicom := ds })
  | .tokD f w =>
    match dc.getitem f with
    | .error e => (.error e, dc)
    | .ok (v, ds) =>
      match asInt v with
      | .error e => (.error e, { dc with dicom := ds })
      | .ok n => (.ok (format0d w n), { dc with dicom := ds })

/-- Prepend an already-rendered prefix `s` to the outcome of rendering the
rest of a template (failures pass through with their state). -/
def rrtStep (s : String) : Except PyErr String × Dicom → Except PyErr String × Dicom
  | (.ok s', dc₂) => (.ok (s ++ s'), dc₂)
  | (.error e, dc₂) => (.error e, dc₂)

/-- Modelled from the spec: `utils.recursive_replace_tokens` — substitute
every field token of the (pre-parsed) template left to right.  Resolved
values are treated as literal text: no claim exercises the recursive
re-substitution or its depth bound of 5, so a single pass is modelled.  A
failed field resolution raises (`AttributeError`), keeping the state already
mutated by earlier tokens. -/
def recursive_replace_tokens : Template → Dicom → Except PyErr String × Dicom
  | [], dc => (.ok "", dc)
  | p :: rest, dc =>
    match renderPiece p dc with
    | (.ok s, dc₁) => rrtStep s (recursive_replace_tokens rest dc₁)
    | (.error e, dc₁) => (.error e, dc₁)

/-- The directory loop of `Dicom.get_destination`: each segment template is
rendered and sanitized, an `AttributeError` replaces the segment with the
literal `"UNKNOWN"`, and any other exception propagates. -/
def buildDirectory : List Template → String → Dicom → Except PyErr (String × Dicom)
  | [], acc, dc => .ok (acc, dc)
  | item :: rest, acc, dc =>
    match recursive_replace_tokens item dc with
    | (.ok s, dc₁) => buildDirectory rest (joinPath acc (clean_directory_name s)) dc₁
    | (.error .attributeError, dc₁) => buildDirectory rest (joinPath acc "UNKNOWN") dc₁
    | (.error e, _) => .error e

/-- The filename part of `Dicom.get_destination`: render and sanitize the
filename template; an `AttributeError` falls back to the basename of
`self.filename`. -/
def filenamePart (dc : Dicom) (directory : String) (fileFormat : Template) :
    Except PyErr (String × Dicom) :=
  match recursive_replace_tokens fileFormat dc with
  | (.ok s, dc₁) => .ok (joinPath directory (clean_path s), dc₁)
  | (.error .attributeError, dc₁) => .ok (joinPath directory (basename dc₁.filename), dc₁)
  | (.error e, _) => .error e

/-- Embedding of `Dicom.get_destination`. -/
def Dicom.get_destination (dc : Dicom) (root : String) (dirFormat : List Template)
    (fileFormat : Template) : Except PyErr (String × Dicom) :=
  match buildDirectory dirFormat root dc with
  | .error e => .error e
  | .ok (directory, dc₁) => filenamePart dc₁ directory fileFormat

/-- Contents of a file in the modelled filesystem: an opaque blob (the bytes
of a file that is merely copied or moved) or a serialized dataset written by
`save_as`. -/
inductive FileData where
  | blob (n : Nat)
  | dicomData (ds : DataSet)
  deriving DecidableEq

/-- Modelled from the spec: the filesystem state the Sorting Pipeline writes
into — existing files with their contents, and existing directories. -/
structure FileSys where
  files : List (String × FileData)
  dirs : List String
  deriving DecidableEq

/-- Embedding of `os.path.exists`: true for files and directories alike. -/
def FileSys.existsPath (fs : FileSys) (p : String) : Bool :=
  (fs.files.lookup p).isSome || fs.dirs.contains p

/-- The chain of directories `os.makedirs` would create for `p` (every
prefix of its component list). -/
def mkdirList (p : String) : List String :=
  let parts := strSplitOn p '/'
  (List.range parts.length).map (fun i => String.intercalate "/" (parts.take (i + 1)))

/-- Modelled from the spec: `utils.mkdir` — recursively create the directory
and its ancestors, tolerating ones that already exist (duplicates in `dirs`
are harmless for `existsPath`). -/
def FileSys.mkdirP (fs : FileSys) (p : String) : FileSys :=
  { fs with dirs := fs.dirs ++ mkdirList p }

/-- Write a file (overwriting any binding at that path). -/
def FileSys.write (fs : FileSys) (p : String) (v : FileData) : FileSys :=
  { fs with files := setAssoc fs.files p v }

/-- Embedding of `os.remove`. -/
def FileSys.remove (fs : FileSys) (p : String) : FileSys :=
  { fs with files := removeAssoc fs.files p }

/-- Read a file's contents, raising `IOError` when absent (as `shutil.copy`
or `shutil.move` would). -/
def FileSys.read (fs : FileSys) (p : String) : Except PyErr FileData :=
  match fs.files.lookup p with
  | some v => .ok v
  | none => .error .ioError

/-- The string `d` with `k` copies of the suffix `".copy"` appended. -/
def addCopies (d : String) : Nat → String
  | 0 => d
  | k + 1 => addCopies (d ++ ".copy") k

/-- The collision loop `while os.path.exists(destination): destination +=
'.copy'`, with explicit fuel (the loop terminates because the filesystem is
finite; `resolveDest` supplies sufficient fuel and is proved to succeed). -/
def findFreeDest (fs : FileSys) : Nat → String → Option String
  | 0, _ => none
  | fuel + 1, d => if fs.existsPath d then findFreeDest fs fuel (d ++ ".copy") else some d

/-- The destination after collision avoidance. -/
def resolveDest (fs : FileSys) (d : String) : Option String :=
  findFreeDest fs (fs.files.length + fs.dirs.length + 1) d

/-- The destination computation at the top of `Dicom.sort`: mirror mode
(`dirFields is None`) relativizes `self.filename` against `rootdir[0]` (an
empty `rootdir` raises `IndexError`); template mode calls
`get_destination`. -/
def computeDestination (dc : Dicom) (root : String) (dirFields : Option (List Template))
    (fnameString : Template) (rootdir : List String) : Except PyErr (String × Dicom) :=
  match dirFields with
  | none =>
    match rootdir with
    | [] => .error .indexError
    | r0 :: _ => .ok (joinPath root (relpath dc.filename r0), dc)
  | some df => dc.get_destination root df fnameString

/-- The anonymized-write loop of `Dicom.sort`: each anonymization value
template is rendered against the resolver (`self.anondict[key] % self`) and
stored into the dataset's element of that name; a name the dataset does not
carry is skipped (`except KeyError: continue`). -/
def applyAnonFields : List (String × Template) → Dicom → Except PyErr Dicom
  | [], dc => .ok dc
  | (key, t) :: rest, dc =>
    match recursive_replace_tokens t dc with
    | (.error e, _) => .error e
    | (.ok val, dc₁) =>
      if dc₁.dicom.hasattr key then
        applyAnonFields rest { dc₁ with dicom := dc₁.dicom.setattr key (.str val) }
      else applyAnonFields rest dc₁

/-- The observable result of one `Dicom.sort` call: the destination printed in
test mode, the filesystem afterwards, and the resolver afterwards. -/
structure SortResult where
  printed : Option String
  fs : FileSys
  dicom : Dicom
  deriving DecidableEq

/-- The write step of `Dicom.sort` once the collision-free destination
`dest` is fixed: an anonymous record has its anonymization values rendered
and stored, is saved to `dest`, and the source is deleted unless
`keepOriginal`; a non-anonymous record is byte-copied (or moved) from the
source file to `dest`. -/
def sortWriteStage (dc : Dicom) (fs : FileSys) (dest : String) (keepOriginal : Bool) :
    Except PyErr SortResult :=
  if dc.is_anonymous then
    match applyAnonFields dc.anondict dc with
    | .error e => .error e
    | .ok dca =>
      let fs₁ := fs.write dest (.dicomData dca.dicom)
      .ok { printed := none
            fs := if keepOriginal then fs₁ else fs₁.remove dca.filename
            dicom := dca }
  else
    match fs.read dc.filename with
    | .error e => .error e
    | .ok data =>
      if keepOriginal then
        .ok { printed := none, fs := fs.write dest data, dicom := dc }
      else
        .ok { printed := none, fs := (fs.write dest data).remove dc.filename, dicom := dc }

/-- The non-test tail of `Dicom.sort`: create the parent directory, resolve
collisions by suffixing `".copy"`, then write. -/
def sortRealStage (dc : Dicom) (fs : FileSys) (destination : String)
    (keepOriginal : Bool) : Except PyErr SortResult :=
  let fs₁ := fs.mkdirP (dirnameP destination)
  match resolveDest fs₁ destination with
  | none => .error .fsLoopFuel
  | some dest => sortWriteStage dc fs₁ dest keepOriginal

/-- Embedding of `Dicom.sort`: compute the destination (mirror or template
mode); in test mode print it and stop; otherwise run the real write path. -/
def Dicom.sortOp (dc : Dicom) (fs : FileSys) (root : String)
    (dirFields : Option (List Template)) (fnameString : Template) (test : Bool)
    (rootdir : List String) (keepOriginal : Bool) : Except PyErr SortResult :=
  match computeDestination dc root dirFields fnameString rootdir with
  | .error e => .error e
  | .ok (destination, dc₁) =>
    if test then .ok { printed := some destination, fs := fs, dicom := dc₁ }
    else sortRealStage dc₁ fs destination keepOriginal

/-- The destination the specification's words prescribe for mirror mode:
output root joined with the item's path made relative to the source root
under which the item was enumerated. -/
def mirrorDestSpec (root srcRoot filename : String) : String :=
  joinPath root (relpath filename srcRoot)

/-- Whether `filename` lies beneath the source root `r` (so that enumeration
by `os.walk(r)` can yield it). -/
def underRoot (r filename : String) : Bool :=
  strStartsWith filename (r ++ "/")

/-- Outcome of `Sorter.sort_image` on one dequeued path: `done` (sorted),
`skipped` (not a DICOM — `sort_image` returns early), or `failed` (an
exception escaped `sort_image`; `Sorter.run` catches only `Queue.Empty`, so
the exception kills the worker thread). -/
inductive ItemOutcome where
  | done
  | skipped
  | failed
  deriving DecidableEq

/-- Phase of one worker thread of the pool: looping (about to call
`get_nowait`), holding a dequeued item (inside `sort_image`), or
terminated (returned from `run`, normally or by an escaped exception). -/
inductive WPhase where
  | running
  | holding (item : String)
  | terminated
  deriving DecidableEq

/-- Shared state of one sort Job: the work queue, the shared progress counter
(`itertools.count` drained by `increment_counter`), the worker phases, and
the list of items already consumed (for accounting). -/
structure RunState where
  queue : List String
  counter : Nat
  workers : List WPhase
  processed : List String
  deriving DecidableEq

/-- Interleaving semantics of `Sorter.run` across the pool, parameterized by
the outcome `oc` of processing each item.  `dequeue` is the atomic
`get_nowait`; `terminate` is the `Queue.Empty` return; `finish` covers a
processed or skipped item followed by `increment_counter`; `crash` is an
exception escaping `sort_image`, which ends the worker without incrementing
the counter (the `except` clause catches only `Queue.Empty`). -/
inductive JobStep (oc : String → ItemOutcome) : RunState → RunState → Prop where
  | dequeue (x : String) (q : List String) (c : Nat) (w₁ w₂ : List WPhase)
      (pr : List String) :
      JobStep oc ⟨x :: q, c, w₁ ++ .running :: w₂, pr⟩
        ⟨q, c, w₁ ++ .holding x :: w₂, pr⟩
  | terminate (c : Nat) (w₁ w₂ : List WPhase) (pr : List String) :
      JobStep oc ⟨[], c, w₁ ++ .running :: w₂, pr⟩
        ⟨[], c, w₁ ++ .terminated :: w₂, pr⟩
  | finish (x : String) (q : List String) (c : Nat) (w₁ w₂ : List WPhase)
      (pr : List String) (h : oc x ≠ .failed) :
      JobStep oc ⟨q, c, w₁ ++ .holding x :: w₂, pr⟩
        ⟨q, c + 1, w₁ ++ .running :: w₂, pr ++ [x]⟩
  | crash (x : String) (q : List String) (c : Nat) (w₁ w₂ : List WPhase)
      (pr : List String) (h : oc x = .failed) :
      JobStep oc ⟨q, c, w₁ ++ .holding x :: w₂, pr⟩
        ⟨q, c, w₁ ++ .terminated :: w₂, pr ++ [x]⟩

/-- Executions of the pool: reflexive-transitive closure of `JobStep`. -/
def JobReach (oc : String → ItemOutcome) : RunState → RunState → Prop :=
  Relation.ReflTransGen (JobStep oc)

/-- Initial Job state: the queue fully populated before the workers start,
counter at zero, `w` workers looping. -/
def initRun (items : List String) (w : Nat) : RunState :=
  ⟨items, 0, List.replicate w .running, []⟩

/-- The items currently held by workers. -/
def heldItems (ws : List WPhase) : List String :=
  ws.filterMap (fun p => match p with | .holding x => some x | _ => none)

/-- Every worker of the pool has terminated. -/
def allTerminated (s : RunState) : Prop :=
  ∀ p ∈ s.workers, p = WPhase.terminated

/-! Association-list lemmas used throughout. -/

theorem beq_false_of_ne {k k' : String} (h : k ≠ k') : (k == k') = false :=
  beq_eq_false_iff_ne.mpr h

theorem lookup_setAssoc_self {α : Type} (l : List (String × α)) (k : String) (v : α) :
    (setAssoc l k v).lookup k = some v := by
  induction l with
  | nil => simp [setAssoc, List.lookup]
  | cons hd tl ih =>
    obtain ⟨k', v'⟩ := hd
    by_cases h : k' = k
    · simp [setAssoc, h, List.lookup]
    · have h2 : k ≠ k' := fun hh => h hh.symm
      simp [setAssoc, h, List.lookup, beq_false_of_ne h2, ih]

theorem lookup_setAssoc_ne {α : Type} (l : List (String × α)) (k k' : String) (v : α)
    (h : k' ≠ k) : (setAssoc l k v).lookup k' = l.lookup k' := by
  induction l with
  | nil => simp [setAssoc, List.lookup, beq_false_of_ne h]
  | cons hd tl ih =>
    obtain ⟨a, b⟩ := hd
    by_cases ha : a = k
    · subst ha
      simp [setAssoc, List.lookup, beq_false_of_ne h]
    · simp only [setAssoc, if_neg ha, List.lookup]
      by_cases hk : k' = a
      · simp [hk]
      · simp [beq_false_of_ne hk, ih]

theorem lookup_append_assoc {α : Type} (l₁ l₂ : List (String × α)) (k : String) :
    (l₁ ++ l₂).lookup k = ((l₁.lookup k).or (l₂.lookup k)) := by
  induction l₁ with
  | nil => simp [List.lookup, Option.or]
  | cons hd tl ih =>
    obtain ⟨a, b⟩ := hd
    by_cases h : k = a
    · simp [List.lookup, h, Option.or]
    · simp [List.lookup, beq_false_of_ne h, ih]

theorem lookup_eq_none_of_not_mem_keys {α : Type} (l : List (String × α)) (k : String)
    (h : k ∉ l.map Prod.fst) : l.lookup k = none := by
  induction l with
  | nil => simp [List.lookup]
  | cons hd tl ih =>
    obtain ⟨a, b⟩ := hd
    simp only [List.map_cons, List.mem_cons] at h
    push_neg at h
    simp [List.lookup, beq_false_of_ne h.1, ih h.2]

theorem updateDict_lookup {α : Type} (base upd : List (String × α)) (k : String) :
    (updateDict base upd).lookup k = ((upd.reverse.lookup k).or (base.lookup k)) := by
  induction upd generalizing base with
  | nil => simp [updateDict, List.lookup, Option.or]
  | cons hd tl ih =>
    obtain ⟨a, b⟩ := hd
    have hstep : updateDict base ((a, b) :: tl) = updateDict (setAssoc base a b) tl := rfl
    rw [hstep, ih, List.reverse_cons, lookup_append_assoc]
    cases htl : tl.reverse.lookup k with
    | some v => simp [Option.or]
    | none =>
      by_cases h : k = a
      · subst h
        simp [List.lookup, Option.or, lookup_setAssoc_self]
      · rw [lookup_setAssoc_ne base a k b h]
        simp [List.lookup, beq_false_of_ne h, Option.or]

theorem mem_keys_setAssoc {α : Type} (l : List (String × α)) (k a : String) (v : α)
    (h : a ∈ (setAssoc l k v).map Prod.fst) : a = k ∨ a ∈ l.map Prod.fst := by
  induction l with
  | nil =>
    simp only [setAssoc, List.map_cons, List.map_nil, List.mem_singleton] at h
    exact Or.inl h
  | cons hd tl ih =>
    obtain ⟨k', v'⟩ := hd
    by_cases hk : k' = k
    · subst hk
      simp only [setAssoc, eq_self_iff_true, if_true, List.map_cons, List.mem_cons] at h
      rcases h with h1 | h1
      · exact Or.inl h1
      · exact Or.inr (List.mem_cons_of_mem _ h1)
    · simp only [setAssoc, if_neg hk, List.map_cons, List.mem_cons] at h
      rcases h with h1 | h1
      · exact Or.inr (h1 ▸ List.mem_cons_self _ _)
      · rcases ih h1 with h2 | h2
        · exact Or.inl h2
        · exact Or.inr (List.mem_cons_of_mem _ h2)

theorem nodup_keys_setAssoc {α : Type} (l : List (String × α)) (k : String) (v : α)
    (h : (l.map Prod.fst).Nodup) : ((setAssoc l k v).map Prod.fst).Nodup := by
  induction l with
  | nil => simp [setAssoc]
  | cons hd tl ih =>
    obtain ⟨k', v'⟩ := hd
    simp only [List.map_cons, List.nodup_cons] at h
    by_cases hk : k' = k
    · subst hk
      simpa [setAssoc] using h
    · simp only [setAssoc, if_neg hk, List.map_cons, List.nodup_cons]
      refine ⟨fun hmem => ?_, ih h.2⟩
      rcases mem_keys_setAssoc tl k k' v hmem with h' | h'
      · exact hk h'
      · exact h.1 h'

theorem lookup_reverse_of_nodup_keys {α : Type} (l : List (String × α)) (k : String)
    (h : (l.map Prod.fst).Nodup) : l.reverse.lookup k = l.lookup k := by
  induction l with
  | nil => simp
  | cons hd tl ih =>
    obtain ⟨a, b⟩ := hd
    simp only [List.map_cons, List.nodup_cons] at h
    rw [List.reverse_cons, lookup_append_assoc, ih h.2]
    by_cases hk : k = a
    · subst hk
      rw [lookup_eq_none_of_not_mem_keys tl k h.1]
      simp [List.lookup, Option.or]
    · cases htl : List.lookup k tl with
      | some v => simp [htl, Option.or, List.lookup, beq_false_of_ne hk]
      | none => simp [htl, Option.or, List.lookup, beq_false_of_ne hk]

theorem lookup_map_value {α β : Type} (f : α → β) (l : List (String × α)) (k : String) :
    (l.map (fun kv => (kv.1, f kv.2))).lookup k = (l.lookup k).map f := by
  induction l with
  | nil => simp [List.lookup]
  | cons hd tl ih =>
    obtain ⟨a, b⟩ := hd
    by_cases h : k = a
    · simp [List.lookup, h]
    · simp [List.lookup, beq_false_of_ne h, ih]

theorem keys_map_value {α β : Type} (f : α → β) (l : List (String × α)) :
    ((l.map (fun kv => (kv.1, f kv.2))).map Prod.fst) = l.map Prod.fst := by
  induction l with
  | nil => rfl
  | cons hd tl ih => simp [ih]

/-! Error-kind lemmas: which exception each embedded computation can raise. -/

theorem getattr_error_eq {d : DataSet} {a : String} {e : PyErr}
    (h : d.getattr a = .error e) : e = .attributeError := by
  unfold DataSet.getattr at h
  cases hl : d.attrs.lookup a <;> rw [hl] at h
  · injection h with h
    exact h.symm
  · cases h

theorem asInt_error_eq {v : Value} {e : PyErr} (h : asInt v = .error e) : e = .typeError := by
  cases v with
  | str s =>
    injection h with h
    exact h.symm
  | intv n => cases h
  | strList l =>
    injection h with h
    exact h.symm

theorem pySet_error_eq {v : Value} {e : PyErr} (h : pySet v = .error e) : e = .typeError := by
  cases v with
  | str s => cases h
  | intv n =>
    injection h with h
    exact h.symm
  | strList l => cases h

theorem get_series_description_error (dc : Dicom) (e : PyErr)
    (h : dc.get_series_description = .error e) : e = .attributeError ∨ e = .typeError := by
  unfold Dicom.get_series_description at h
  split at h
  · split at h
    · cases h
      rename_i heq
      exact Or.inl (getattr_error_eq heq)
    · split at h
      · cases h
        rename_i heq
        exact Or.inr (asInt_error_eq heq)
      · cases h
  · split at h
    · cases h
      rename_i heq
      exact Or.inl (getattr_error_eq heq)
    · split at h
      · cases h
        rename_i heq
        exact Or.inr (asInt_error_eq heq)
      · split at h
        · cases h
          rename_i heq
          exact Or.inl (getattr_error_eq heq)
        · split at h <;> cases h

theorem imageTypeGo_error (d : DataSet) (imType : List String)
    (rules : List (String × List String)) (e : PyErr)
    (h : imageTypeGo d imType rules = .error e) : e = .attributeError := by
  induction rules with
  | nil => cases h
  | cons hd tl ih =>
    obtain ⟨name, m⟩ := hd
    unfold imageTypeGo at h
    split at h
    · split at h
      · split at h
        · cases h
          rename_i heq
          exact getattr_error_eq heq
        · cases h
      · cases h
    · exact ih h

theorem get_image_type_error (dc : Dicom) (e : PyErr)
    (h : dc.get_image_type = .error e) : e = .attributeError ∨ e = .typeError := by
  unfold Dicom.get_image_type get_image_type_aux at h
  split at h
  · cases h
  · rename_i e' hne heq
    injection h with h
    subst h
    exact Or.inl (getattr_error_eq heq)
  · split at h
    · cases h
      rename_i heq
      exact Or.inr (pySet_error_eq heq)
    · exact Or.inl (imageTypeGo_error _ _ _ _ h)

theorem evalOverride_ne_keyError (dc : Dicom) (ov : Override) :
    evalOverride dc ov ≠ .error .keyError := by
  cases ov with
  | const t => simp [evalOverride]
  | fileExtension => simp [evalOverride, Dicom.get_file_extension]
  | seriesDescription =>
    simp only [evalOverride]
    split
    · rename_i heq
      rcases get_series_description_error _ _ heq with h | h <;> simp [h]
    · simp
  | imageType =>
    simp only [evalOverride]
    intro h
    rcases get_image_type_error dc _ h with h' | h' <;> cases h'

/-- C2.  For every resolved record and field name, `__getitem__` consults the
override dictionary first: a present entry is evaluated (invoking a callable)
and its value — never the raw attribute — is returned; an absent entry falls
through to the raw dataset attribute; and when neither resolves the lookup
raises `AttributeError`. -/
theorem getitem_override_precedence (dc : Dicom) (attr : String) :
    (∀ ov, dc.overrides.lookup attr = some ov → dc.getitem attr = evalOverride dc ov) ∧
    (dc.overrides.lookup attr = none →
      ∀ v, dc.dicom.attrs.lookup attr = some v → dc.getitem attr = .ok (v, dc.dicom)) ∧
    (dc.overrides.lookup attr = none → dc.dicom.attrs.lookup attr = none →
      dc.getitem attr = .error .attributeError) := by
  refine ⟨fun ov hov => ?_, fun hov v hv => ?_, fun hov hv => ?_⟩
  · simp only [Dicom.getitem, hov]
    cases hev : evalOverride dc ov with
    | ok r => rfl
    | error e =>
      cases e with
      | keyError => exact absurd hev (evalOverride_ne_keyError dc ov)
      | attributeError => rfl
      | typeError => rfl
      | valueError => rfl
      | indexError => rfl
      | ioError => rfl
      | fsLoopFuel => rfl
  · simp only [Dicom.getitem, hov, DataSet.getattr, hv]
  · simp only [Dicom.getitem, hov, DataSet.getattr, hv]

/-- Witness for C2 at concrete inputs: the default `ImageType` override
shadows a raw `ImageType` attribute; an unmapped name `"Rows"` resolves to
the raw attribute; and a name absent from both fails. -/
theorem getitem_override_precedence_witness :
    (Dicom.init "f" ⟨[("ImageType", .strList ["P"]), ("Rows", .intv 5)], "f"⟩).getitem
        "ImageType" =
      evalOverride (Dicom.init "f" ⟨[("ImageType", .strList ["P"]), ("Rows", .intv 5)], "f"⟩)
        .imageType ∧
    (Dicom.init "f" ⟨[("ImageType", .strList ["P"]), ("Rows", .intv 5)], "f"⟩).getitem "Rows" =
      .ok (.intv 5, ⟨[("ImageType", .strList ["P"]), ("Rows", .intv 5)], "f"⟩) ∧
    (Dicom.init "f" ⟨[("ImageType", .strList ["P"]), ("Rows", .intv 5)], "f"⟩).getitem
        "Columns" = .error .attributeError := by
  refine ⟨?_, ?_, ?_⟩
  · exact (getitem_override_precedence _ "ImageType").1 .imageType (by decide)
  · exact (getitem_override_precedence _ "Rows").2.1 (by decide) (.intv 5) (by decide)
  · exact (getitem_override_precedence _ "Columns").2.2 (by decide) (by decide)

/-- C10.  A field name present in the override dictionary whose callable
evaluation fails propagates that failure out of `__getitem__` (only a
`KeyError` would fall back to the raw attribute, and the computed overrides
raise `AttributeError`), even when the raw dataset does carry the field. -/
theorem getitem_failing_override_propagates (dc : Dicom) (attr : String) (ov : Override)
    (hov : dc.overrides.lookup attr = some ov)
    (heval : evalOverride dc ov = .error .attributeError)
    (hraw : dc.dicom.hasattr attr = true) :
    dc.getitem attr = .error .attributeError := by
  simp only [Dicom.getitem, hov, heval]

/-- Witness for C10: the built-in `SeriesDescription` computation on a record
that has a raw `SeriesDescription` but no `SeriesNumber` fails with
`AttributeError`, and the lookup reports that failure instead of the raw
value. -/
theorem getitem_failing_override_propagates_witness :
    (Dicom.init "f" ⟨[("SeriesDescription", .str "raw")], "f"⟩).getitem "SeriesDescription" =
      .error .attributeError := by
  exact getitem_failing_override_propagates _ "SeriesDescription" .seriesDescription
    (by decide) (by decide) (by decide)

/-! Claim C1: the anonymization birth-date shift. -/

theorem ageCapture_ok (dc : Dicom) :
    ∃ dc₂, ageCapture dc = .ok dc₂ ∧
      dc₂.filename = dc.filename ∧
      dc₂.anondict = dc.anondict ∧
      (∀ k, k ≠ "PatientAge" → dc₂.dicom.attrs.lookup k = dc.dicom.attrs.lookup k) := by
  unfold ageCapture
  cases hc : (dc.dicom.hasattr "PatientAge" && dc.dicom.hasattr "StudyDate") with
  | false =>
    refine ⟨dc, ?_, rfl, rfl, fun k _ => rfl⟩
    simp [hc]
  | true =>
    have hpa : dc.dicom.hasattr "PatientAge" = true := by
      rcases Bool.and_eq_true_iff.mp hc with ⟨h1, _⟩
      exact h1
    have hsome : (dc.dicom.attrs.lookup "PatientAge").isSome := hpa
    obtain ⟨v, hv⟩ := Option.isSome_iff_exists.mp hsome
    have hage : dc.dicom.get_patient_age = .ok v := by
      unfold DataSet.get_patient_age
      rw [if_pos hpa]
      unfold DataSet.getattr
      rw [hv]
    refine ⟨{ dc with dicom := dc.dicom.setattr "PatientAge" v }, ?_, rfl, rfl, fun k hk => ?_⟩
    · simp [hc, hage]
    · exact lookup_setAssoc_ne dc.dicom.attrs "PatientAge" k v hk

/-- C1.  `SetAnonRules` with a caller-supplied empty `PatientBirthDate`
replacement, on a record with a non-empty birth date and a study date,
installs as the `PatientBirthDate` override the birth year followed by
`"0101"` when the study date's month-day digits are at least the birth
date's, and the next year followed by `"0101"` otherwise. -/
theorem setAnonRules_birthdate_shift (dc : Dicom) (ad : List (String × Template))
    (b s : String) (bI sI yI : Int)
    (hnd : (ad.map Prod.fst).Nodup)
    (had : ad.lookup "PatientBirthDate" = some [])
    (hb : dc.dicom.attrs.lookup "PatientBirthDate" = some (.str b))
    (hbne : b ≠ "")
    (hs : dc.dicom.attrs.lookup "StudyDate" = some (.str s))
    (hbi : pyParseInt (b.drop 4) = some bI)
    (hsi : pyParseInt (s.drop 4) = some sI)
    (hy : pyParseInt (b.take 4) = some yI) :
    ∃ dc', dc.SetAnonRules ad = .ok dc' ∧
      dc'.overrides.lookup "PatientBirthDate" =
        some (.const [Piece.lit
          (if sI ≥ bI then b.take 4 ++ "0101" else toString (yI + 1) ++ "0101")]) := by
  obtain ⟨dc₂, hac, _, hanon₂, hlk⟩ := ageCapture_ok { dc with anondict := ad }
  have hb₂ : dc₂.dicom.attrs.lookup "PatientBirthDate" = some (.str b) := by
    rw [hlk _ (by decide)]
    exact hb
  have hs₂ : dc₂.dicom.attrs.lookup "StudyDate" = some (.str s) := by
    rw [hlk _ (by decide)]
    exact hs
  have hsd₂ : dc₂.dicom.hasattr "StudyDate" = true := by
    unfold DataSet.hasattr
    rw [hs₂]
    rfl
  have hnb : computeNewBirth dc₂.dicom = .ok
      (if sI ≥ bI then b.take 4 ++ "0101" else toString (yI + 1) ++ "0101") := by
    simp only [computeNewBirth, DataSet.getattr, hb₂, hs₂, asStr, hbi, hsi, hy]
    split <;> rfl
  have hgb : ({ dc with anondict := ad } : Dicom).dicom.getattr "PatientBirthDate" =
      .ok (.str b) := by
    unfold DataSet.getattr
    rw [hb]
  have hbneq : ¬(Value.str b = Value.str "") := by
    intro hh
    exact hbne (by injection hh)
  refine ⟨installOverrides
    { dc₂ with anondict := setAssoc dc₂.anondict "PatientBirthDate" [Piece.lit
        (if sI ≥ bI then b.take 4 ++ "0101" else toString (yI + 1) ++ "0101")] }, ?_, ?_⟩
  · simp only [Dicom.SetAnonRules, had, ne_eq, not_true_eq_false, if_false, hgb,
      if_neg hbneq, hac, hsd₂, if_true, hnb]
  · simp only [installOverrides, hanon₂]
    rw [updateDict_lookup]
    have hkeys : (((setAssoc ad "PatientBirthDate" [Piece.lit
        (if sI ≥ bI then b.take 4 ++ "0101" else toString (yI + 1) ++ "0101")]).map
        (fun kv => (kv.1, Override.const kv.2))).map Prod.fst).Nodup := by
      rw [keys_map_value]
      exact nodup_keys_setAssoc ad "PatientBirthDate" _ hnd
    rw [lookup_reverse_of_nodup_keys _ _ hkeys, lookup_map_value, lookup_setAssoc_self]
    rfl

/-- Witness for C1 at the two spec examples: study `20200615` with birth
`19900310` shifts to `19900101`; study `20200215` with birth `19900310`
shifts to `19910101`. -/
theorem setAnonRules_birthdate_shift_witness :
    (∃ dc', (Dicom.init "/s/a.dcm"
        ⟨[("PatientBirthDate", .str "19900310"), ("StudyDate", .str "20200615")],
          "/s/a.dcm"⟩).SetAnonRules [("PatientBirthDate", [])] = .ok dc' ∧
      dc'.overrides.lookup "PatientBirthDate" = some (.const [Piece.lit "19900101"])) ∧
    (∃ dc', (Dicom.init "/s/a.dcm"
        ⟨[("PatientBirthDate", .str "19900310"), ("StudyDate", .str "20200215")],
          "/s/a.dcm"⟩).SetAnonRules [("PatientBirthDate", [])] = .ok dc' ∧
      dc'.overrides.lookup "PatientBirthDate" = some (.const [Piece.lit "19910101"])) := by
  constructor
  · obtain ⟨dc', h1, h2⟩ := setAnonRules_birthdate_shift
      (Dicom.init "/s/a.dcm"
        ⟨[("PatientBirthDate", .str "19900310"), ("StudyDate", .str "20200615")], "/s/a.dcm"⟩)
      [("PatientBirthDate", [])] "19900310" "20200615" 310 615 1990
      (by decide) (by decide) (by decide) (by decide) (by decide)
      (by decide) (by decide) (by decide)
    refine ⟨dc', h1, ?_⟩
    rw [h2]
    decide
  · obtain ⟨dc', h1, h2⟩ := setAnonRules_birthdate_shift
      (Dicom.init "/s/a.dcm"
        ⟨[("PatientBirthDate", .str "19900310"), ("StudyDate", .str "20200215")], "/s/a.dcm"⟩)
      [("PatientBirthDate", [])] "19900310" "20200215" 310 215 1990
      (by decide) (by decide) (by decide) (by decide) (by decide)
      (by decide) (by decide) (by decide)
    refine ⟨dc', h1, ?_⟩
    rw [h2]
    decide

/-! Claim C9: the `PatientAge` computation. -/

/-- Counterexample to C9 as stated: with a non-empty birth date present but
no study date (and no existing age), the claim predicts the empty string,
but `_get_patient_age` reads `self.dicom.StudyDate` unguarded and raises
`AttributeError`. -/
theorem get_patient_age_counterexample :
    (DataSet.get_patient_age ⟨[("PatientBirthDate", .str "19900310")], "f"⟩ =
      .error .attributeError) ∧
    ¬(DataSet.get_patient_age ⟨[("PatientBirthDate", .str "19900310")], "f"⟩ =
      .ok (.str "")) := by
  decide

/-- C9 (amended).  `_get_patient_age` returns the existing `PatientAge` when
present; otherwise, an absent or empty birth date yields the empty string;
otherwise the study date is read — `AttributeError` when absent — and the
age is the Python 2 floor quotient `(int(study) - int(birth)) / 10000`
rendered through `'%03dY'`. -/
theorem get_patient_age_cases (d : DataSet) :
    (∀ v, d.attrs.lookup "PatientAge" = some v → d.get_patient_age = .ok v) ∧
    (d.attrs.lookup "PatientAge" = none → d.attrs.lookup "PatientBirthDate" = none →
      d.get_patient_age = .ok (.str "")) ∧
    (d.attrs.lookup "PatientAge" = none →
      d.attrs.lookup "PatientBirthDate" = some (.str "") →
      d.get_patient_age = .ok (.str "")) ∧
    (∀ b, d.attrs.lookup "PatientAge" = none →
      d.attrs.lookup "PatientBirthDate" = some (.str b) → b ≠ "" →
      d.attrs.lookup "StudyDate" = none →
      d.get_patient_age = .error .attributeError) ∧
    (∀ b s bi si, d.attrs.lookup "PatientAge" = none →
      d.attrs.lookup "PatientBirthDate" = some (.str b) → b ≠ "" →
      d.attrs.lookup "StudyDate" = some (.str s) →
      pyParseInt s = some si → pyParseInt b = some bi →
      d.get_patient_age = .ok (.str (format0d 3 (Int.fdiv (si - bi) 10000) ++ "Y"))) := by
  refine ⟨fun v hv => ?_, fun ha hb => ?_, fun ha hb => ?_,
    fun b ha hb hbne hsd => ?_, fun b s bi si ha hb hbne hsd hsi hbi => ?_⟩
  · simp [DataSet.get_patient_age, DataSet.hasattr, DataSet.getattr, hv]
  · simp [DataSet.get_patient_age, DataSet.hasattr, DataSet.getattr, ha, hb]
  · simp [DataSet.get_patient_age, DataSet.hasattr, DataSet.getattr, ha, hb]
  · simp [DataSet.get_patient_age, DataSet.hasattr, DataSet.getattr, ha, hb, hbne, hsd]
  · simp [DataSet.get_patient_age, DataSet.hasattr, DataSet.getattr, pyIntOfValue,
      ha, hb, hbne, hsd, hsi, hbi]

/-- Witness for C9 (amended) at concrete inputs: birth `19900310` with study
`20200615` gives `"030Y"`, and the same record without a study date raises
`AttributeError`. -/
theorem get_patient_age_cases_witness :
    DataSet.get_patient_age
      ⟨[("PatientBirthDate", .str "19900310"), ("StudyDate", .str "20200615")], "f"⟩ =
      .ok (.str "030Y") ∧
    DataSet.get_patient_age ⟨[("PatientBirthDate", .str "19900310")], "f"⟩ =
      .error .attributeError := by
  constructor
  · have h := (get_patient_age_cases
      ⟨[("PatientBirthDate", .str "19900310"), ("StudyDate", .str "20200615")], "f"⟩).2.2.2.2
      "19900310" "20200615" 19900310 20200615 (by decide) (by decide) (by decide)
      (by decide) (by decide) (by decide)
    rw [h]
    decide
  · exact (get_patient_age_cases ⟨[("PatientBirthDate", .str "19900310")], "f"⟩).2.2.2.1
      "19900310" (by decide) (by decide) (by decide) (by decide)

/-! Claim C3: the image-type classifier. -/

/-- The body of the match arm of `_get_image_type` once a rule named `name`
has matched: `'3DRecon'` overwrites `InstanceNumber` with `SeriesNumber`,
any other rule just returns its name. -/
def applyRule (d : DataSet) (name : String) : Except PyErr (Value × DataSet) :=
  if name = "3DRecon" then
    match d.getattr "SeriesNumber" with
    | .error e => .error e
    | .ok sn => .ok (.str name, d.setattr "InstanceNumber" sn)
  else .ok (.str name, d)

theorem imageTypeGo_no_match (rules : List (String × List String)) (imType : List String)
    (d : DataSet)
    (h : rules.filter (fun r => r.2.all (fun t => imType.contains t)) = []) :
    imageTypeGo d imType rules = .ok (.str "Image", d) := by
  induction rules with
  | nil => rfl
  | cons hd tl ih =>
    obtain ⟨n', m'⟩ := hd
    cases hm : m'.all (fun t => imType.contains t) with
    | true =>
      rw [List.filter_cons_of_pos (by simpa using hm)] at h
      cases h
    | false =>
      rw [List.filter_cons_of_neg (by simpa using hm)] at h
      unfold imageTypeGo
      rw [if_neg (by simpa using hm)]
      exact ih h

theorem imageTypeGo_unique_match (rules : List (String × List String)) (imType : List String)
    (d : DataSet) (name : String) (m : List String)
    (h : rules.filter (fun r => r.2.all (fun t => imType.contains t)) = [(name, m)]) :
    imageTypeGo d imType rules = applyRule d name := by
  induction rules with
  | nil => cases h
  | cons hd tl ih =>
    obtain ⟨n', m'⟩ := hd
    cases hm : m'.all (fun t => imType.contains t) with
    | true =>
      rw [List.filter_cons_of_pos (by simpa using hm)] at h
      injection h with h1 h2
      injection h1 with h3 h4
      subst h3
      unfold imageTypeGo
      rw [if_pos (by simpa using hm)]
      rfl
    | false =>
      rw [List.filter_cons_of_neg (by simpa using hm)] at h
      unfold imageTypeGo
      rw [if_neg (by simpa using hm)]
      exact ih h

/-- Counterexample to C3 as stated: matching is by subset, so the tag set
`{"P","FFE","M"}` matches two rules at once (a tie), and the result then
depends on the dictionary iteration order, which Python 2 leaves
unspecified: the table's textual order classifies it `"Phase"`, another
iteration order of the same table classifies it `"Mag"`. -/
theorem get_image_type_tie_counterexample :
    ((imageTypeRules.filter
        (fun r => r.2.all (fun t => (["P", "FFE", "M"] : List String).contains t))).length
      = 2) ∧
    ([("Mag", ["FFE", "M"]), ("Phase", ["P"]), ("3DRecon", ["CSA 3D EDITOR"]),
        ("Phoenix", ["CSA REPORT"])] : List (String × List String)).Perm imageTypeRules ∧
    get_image_type_aux imageTypeRules ⟨[("ImageType", .strList ["P", "FFE", "M"])], "f"⟩ =
      .ok (.str "Phase", ⟨[("ImageType", .strList ["P", "FFE", "M"])], "f"⟩) ∧
    get_image_type_aux
        [("Mag", ["FFE", "M"]), ("Phase", ["P"]), ("3DRecon", ["CSA 3D EDITOR"]),
          ("Phoenix", ["CSA REPORT"])]
        ⟨[("ImageType", .strList ["P", "FFE", "M"])], "f"⟩ =
      .ok (.str "Mag", ⟨[("ImageType", .strList ["P", "FFE", "M"])], "f"⟩) ∧
    ("Phase" : String) ≠ "Mag" := by
  refine ⟨by decide, by decide, by decide, by decide, by decide⟩

/-- C3 (amended).  Matching is by subset, so several rules can match one tag
set and the winner is the first in the (unspecified) dict iteration order;
but whenever the fixed table matches exactly one rule the result is
independent of the order: under every iteration order of the rule table, an
absent tag field classifies `"Unknown"`, a tag set matching no rule
classifies `"Image"`, a tag set matching exactly one rule other than
`3DRecon` classifies as that rule's name with the dataset untouched, and a
tag set matching exactly the `3DRecon` rule classifies `"3DRecon"` and
overwrites `InstanceNumber` with `SeriesNumber`. -/
theorem get_image_type_ordered (rules : List (String × List String))
    (hperm : rules.Perm imageTypeRules) :
    (∀ d : DataSet, d.attrs.lookup "ImageType" = none →
      get_image_type_aux rules d = .ok (.str "Unknown", d)) ∧
    (∀ (d : DataSet) (l : List String),
      d.attrs.lookup "ImageType" = some (.strList l) →
      imageTypeRules.filter (fun r => r.2.all (fun t => l.contains t)) = [] →
      get_image_type_aux rules d = .ok (.str "Image", d)) ∧
    (∀ (d : DataSet) (l : List String) (name : String) (m : List String),
      d.attrs.lookup "ImageType" = some (.strList l) →
      imageTypeRules.filter (fun r => r.2.all (fun t => l.contains t)) = [(name, m)] →
      name ≠ "3DRecon" →
      get_image_type_aux rules d = .ok (.str name, d)) ∧
    (∀ (d : DataSet) (l : List String) (m : List String) (sn : Value),
      d.attrs.lookup "ImageType" = some (.strList l) →
      imageTypeRules.filter (fun r => r.2.all (fun t => l.contains t)) = [("3DRecon", m)] →
      d.attrs.lookup "SeriesNumber" = some sn →
      get_image_type_aux rules d =
        .ok (.str "3DRecon", d.setattr "InstanceNumber" sn)) := by
  refine ⟨fun d hd => ?_, fun d l hd hf => ?_, fun d l name m hd hf hn => ?_,
    fun d l m sn hd hf hsn => ?_⟩
  · simp [get_image_type_aux, DataSet.getattr, hd]
  · have hf' : rules.filter (fun r => r.2.all (fun t => l.contains t)) = [] :=
      List.Perm.eq_nil ((hperm.filter _).trans (by rw [hf]))
    simp [get_image_type_aux, DataSet.getattr, hd, pySet, imageTypeGo_no_match rules l d hf']
  · have hf' : rules.filter (fun r => r.2.all (fun t => l.contains t)) = [(name, m)] :=
      List.perm_singleton.mp ((hperm.filter _).trans (by rw [hf]))
    have hgo := imageTypeGo_unique_match rules l d name m hf'
    simp [get_image_type_aux, DataSet.getattr, hd, pySet, hgo, applyRule, hn]
  · have hf' : rules.filter (fun r => r.2.all (fun t => l.contains t)) = [("3DRecon", m)] :=
      List.perm_singleton.mp ((hperm.filter _).trans (by rw [hf]))
    have hgo := imageTypeGo_unique_match rules l d "3DRecon" m hf'
    simp [get_image_type_aux, DataSet.getattr, hd, pySet, hgo, applyRule, hsn]

/-- Witness for C3 (amended) at the table's textual order: `{"M","FFE"}` is
`"Mag"`, `{"CSA REPORT"}` is `"Phoenix"`, `{}` is `"Image"`, a missing tag
field is `"Unknown"`, `{"P"}` is `"Phase"`, and `{"CSA 3D EDITOR"}` is
`"3DRecon"` with `InstanceNumber` overwritten by `SeriesNumber`. -/
theorem get_image_type_ordered_witness :
    get_image_type_aux imageTypeRules ⟨[("ImageType", .strList ["M", "FFE"])], "f"⟩ =
      .ok (.str "Mag", ⟨[("ImageType", .strList ["M", "FFE"])], "f"⟩) ∧
    get_image_type_aux imageTypeRules ⟨[("ImageType", .strList ["CSA REPORT"])], "f"⟩ =
      .ok (.str "Phoenix", ⟨[("ImageType", .strList ["CSA REPORT"])], "f"⟩) ∧
    get_image_type_aux imageTypeRules ⟨[("ImageType", .strList [])], "f"⟩ =
      .ok (.str "Image", ⟨[("ImageType", .strList [])], "f"⟩) ∧
    get_image_type_aux imageTypeRules ⟨[("Rows", .intv 4)], "f"⟩ =
      .ok (.str "Unknown", ⟨[("Rows", .intv 4)], "f"⟩) ∧
    get_image_type_aux imageTypeRules ⟨[("ImageType", .strList ["P"])], "f"⟩ =
      .ok (.str "Phase", ⟨[("ImageType", .strList ["P"])], "f"⟩) ∧
    get_image_type_aux imageTypeRules
        ⟨[("ImageType", .strList ["CSA 3D EDITOR"]), ("SeriesNumber", .intv 7),
          ("InstanceNumber", .intv 3)], "f"⟩ =
      .ok (.str "3DRecon",
        DataSet.setattr
          ⟨[("ImageType", .strList ["CSA 3D EDITOR"]), ("SeriesNumber", .intv 7),
            ("InstanceNumber", .intv 3)], "f"⟩ "InstanceNumber" (.intv 7)) := by
  refine ⟨?_, ?_, ?_, ?_, ?_, ?_⟩
  · exact (get_image_type_ordered imageTypeRules (List.Perm.refl _)).2.2.1
      _ ["M", "FFE"] "Mag" ["FFE", "M"] (by decide) (by decide) (by decide)
  · exact (get_image_type_ordered imageTypeRules (List.Perm.refl _)).2.2.1
      _ ["CSA REPORT"] "Phoenix" ["CSA REPORT"] (by decide) (by decide) (by decide)
  · exact (get_image_type_ordered imageTypeRules (List.Perm.refl _)).2.1
      _ [] (by decide) (by decide)
  · exact (get_image_type_ordered imageTypeRules (List.Perm.refl _)).1 _ (by decide)
  · exact (get_image_type_ordered imageTypeRules (List.Perm.refl _)).2.2.1
      _ ["P"] "Phase" ["P"] (by decide) (by decide) (by decide)
  · exact (get_image_type_ordered imageTypeRules (List.Perm.refl _)).2.2.2
      _ ["CSA 3D EDITOR"] ["CSA 3D EDITOR"] (.intv 7) (by decide) (by decide) (by decide)

/-! Claim C4: rendering failures are contained at the destination boundary. -/

theorem renderPiece_filename (p : Piece) (dc : Dicom) :
    (renderPiece p dc).2.filename = dc.filename := by
  unfold renderPiece
  split
  · rfl
  · split
    · rfl
    · rfl
  · split
    · rfl
    · split
      · rfl
      · rfl

theorem rrtStep_snd (s : String) (x : Except PyErr String × Dicom) :
    (rrtStep s x).2 = x.2 := by
  obtain ⟨r, d⟩ := x
  cases r <;> rfl

theorem recursive_replace_tokens_filename (t : Template) (dc : Dicom) :
    (recursive_replace_tokens t dc).2.filename = dc.filename := by
  induction t generalizing dc with
  | nil => rfl
  | cons p rest ih =>
    have hpf := renderPiece_filename p dc
    unfold recursive_replace_tokens
    cases hp : renderPiece p dc with
    | mk r dc₁ =>
      rw [hp] at hpf
      cases r with
      | error e => exact hpf
      | ok s =>
        show (rrtStep s (recursive_replace_tokens rest dc₁)).2.filename = dc.filename
        rw [rrtStep_snd]
        exact (ih dc₁).trans hpf

theorem buildDirectory_filename (df : List Template) (acc : String) (dc : Dicom)
    (dir : String) (dc₁ : Dicom) (h : buildDirectory df acc dc = .ok (dir, dc₁)) :
    dc₁.filename = dc.filename := by
  induction df generalizing acc dc with
  | nil =>
    injection h with h'
    injection h' with h1 h2
    rw [h2]
  | cons t rest ih =>
    have hpf := recursive_replace_tokens_filename t dc
    unfold buildDirectory at h
    cases hp : recursive_replace_tokens t dc with
    | mk r dcm =>
      rw [hp] at h hpf
      cases r with
      | ok s =>
        have h' : buildDirectory rest (joinPath acc (clean_directory_name s)) dcm =
            .ok (dir, dc₁) := h
        exact (ih _ _ h').trans hpf
      | error e =>
        cases e with
        | attributeError =>
          have h' : buildDirectory rest (joinPath acc "UNKNOWN") dcm = .ok (dir, dc₁) := h
          exact (ih _ _ h').trans hpf
        | keyError =>
          have h' : (Except.error PyErr.keyError : Except PyErr (String × Dicom)) =
              .ok (dir, dc₁) := h
          cases h'
        | typeError =>
          have h' : (Except.error PyErr.typeError : Except PyErr (String × Dicom)) =
              .ok (dir, dc₁) := h
          cases h'
        | valueError =>
          have h' : (Except.error PyErr.valueError : Except PyErr (String × Dicom)) =
              .ok (dir, dc₁) := h
          cases h'
        | indexError =>
          have h' : (Except.error PyErr.indexError : Except PyErr (String × Dicom)) =
              .ok (dir, dc₁) := h
          cases h'
        | ioError =>
          have h' : (Except.error PyErr.ioError : Except PyErr (String × Dicom)) =
              .ok (dir, dc₁) := h
          cases h'
        | fsLoopFuel =>
          have h' : (Except.error PyErr.fsLoopFuel : Except PyErr (String × Dicom)) =
              .ok (dir, dc₁) := h
          cases h'

theorem buildDirectory_error_ne_attr (df : List Template) (acc : String) (dc : Dicom)
    (e : PyErr) (h : buildDirectory df acc dc = .error e) : e ≠ .attributeError := by
  induction df generalizing acc dc with
  | nil => cases h
  | cons t rest ih =>
    unfold buildDirectory at h
    cases hp : recursive_replace_tokens t dc with
    | mk r dcm =>
      rw [hp] at h
      cases r with
      | ok s =>
        have h' : buildDirectory rest (joinPath acc (clean_directory_name s)) dcm =
            .error e := h
        exact ih _ _ h'
      | error e' =>
        cases e' with
        | attributeError =>
          have h' : buildDirectory rest (joinPath acc "UNKNOWN") dcm = .error e := h
          exact ih _ _ h'
        | keyError =>
          have h' : (Except.error PyErr.keyError : Except PyErr (String × Dicom)) =
              .error e := h
          injection h' with h''
          subst h''
          decide
        | typeError =>
          have h' : (Except.error PyErr.typeError : Except PyErr (String × Dicom)) =
              .error e := h
          injection h' with h''
          subst h''
          decide
        | valueError =>
          have h' : (Except.error PyErr.valueError : Except PyErr (String × Dicom)) =
              .error e := h
          injection h' with h''
          subst h''
          decide
        | indexError =>
          have h' : (Except.error PyErr.indexError : Except PyErr (String × Dicom)) =
              .error e := h
          injection h' with h''
          subst h''
          decide
        | ioError =>
          have h' : (Except.error PyErr.ioError : Except PyErr (String × Dicom)) =
              .error e := h
          injection h' with h''
          subst h''
          decide
        | fsLoopFuel =>
          have h' : (Except.error PyErr.fsLoopFuel : Except PyErr (String × Dicom)) =
              .error e := h
          injection h' with h''
          subst h''
          decide

/-- C4.  A failed field resolution (`AttributeError`) never escapes
`get_destination`: a failing directory-segment template contributes the
literal `"UNKNOWN"` and rendering continues, and a failing filename template
falls back to the basename of the item's original filename. -/
theorem get_destination_fallbacks :
    (∀ (dc : Dicom) (root : String) (df : List Template) (ff : Template) (e : PyErr),
      dc.get_destination root df ff = .error e → e ≠ .attributeError) ∧
    (∀ (dc : Dicom) (root : String) (t : Template) (rest : List Template) (ff : Template)
      (dc₁ : Dicom),
      recursive_replace_tokens t dc = (.error .attributeError, dc₁) →
      dc.get_destination root (t :: rest) ff =
        dc₁.get_destination (joinPath root "UNKNOWN") rest ff) ∧
    (∀ (dc : Dicom) (root : String) (df : List Template) (ff : Template) (dir : String)
      (dc₁ dc₂ : Dicom),
      buildDirectory df root dc = .ok (dir, dc₁) →
      recursive_replace_tokens ff dc₁ = (.error .attributeError, dc₂) →
      dc.get_destination root df ff = .ok (joinPath dir (basename dc.filename), dc₂)) := by
  refine ⟨fun dc root df ff e h => ?_, fun dc root t rest ff dc₁ h => ?_,
    fun dc root df ff dir dc₁ dc₂ hb hf => ?_⟩
  · unfold Dicom.get_destination at h
    cases hb : buildDirectory df root dc with
    | error e' =>
      rw [hb] at h
      injection h with h'
      subst h'
      exact buildDirectory_error_ne_attr df root dc _ hb
    | ok r =>
      obtain ⟨dir, dc₁⟩ := r
      rw [hb] at h
      have h₀ : filenamePart dc₁ dir ff = .error e := h
      unfold filenamePart at h₀
      cases hf : recursive_replace_tokens ff dc₁ with
      | mk r₂ dc₂ =>
        rw [hf] at h₀
        cases r₂ with
        | ok s =>
          have h' : (Except.ok (joinPath dir (clean_path s), dc₂) :
              Except PyErr (String × Dicom)) = .error e := h₀
          cases h'
        | error e' =>
          cases e' with
          | attributeError =>
            have h' : (Except.ok (joinPath dir (basename dc₂.filename), dc₂) :
                Except PyErr (String × Dicom)) = .error e := h₀
            cases h'
          | keyError =>
            have h' : (Except.error PyErr.keyError : Except PyErr (String × Dicom)) =
                .error e := h₀
            injection h' with h''
            subst h''
            decide
          | typeError =>
            have h' : (Except.error PyErr.typeError : Except PyErr (String × Dicom)) =
                .error e := h₀
            injection h' with h''
            subst h''
            decide
          | valueError =>
            have h' : (Except.error PyErr.valueError : Except PyErr (String × Dicom)) =
                .error e := h₀
            injection h' with h''
            subst h''
            decide
          | indexError =>
            have h' : (Except.error PyErr.indexError : Except PyErr (String × Dicom)) =
                .error e := h₀
            injection h' with h''
            subst h''
            decide
          | ioError =>
            have h' : (Except.error PyErr.ioError : Except PyErr (String × Dicom)) =
                .error e := h₀
            injection h' with h''
            subst h''
            decide
          | fsLoopFuel =>
            have h' : (Except.error PyErr.fsLoopFuel : Except PyErr (String × Dicom)) =
                .error e := h₀
            injection h' with h''
            subst h''
            decide
  · unfold Dicom.get_destination
    have hstep : buildDirectory (t :: rest) root dc =
        buildDirectory rest (joinPath root "UNKNOWN") dc₁ := by
      conv_lhs => unfold buildDirectory
      rw [h]
    rw [hstep]

  · have hfn₂ : dc₂.filename = dc₁.filename := by
      have := recursive_replace_tokens_filename ff dc₁
      rw [hf] at this
      exact this
    have hfn₁ : dc₁.filename = dc.filename := buildDirectory_filename df root dc dir dc₁ hb
    unfold Dicom.get_destination
    rw [hb]
    show filenamePart dc₁ dir ff = .ok (joinPath dir (basename dc.filename), dc₂)
    unfold filenamePart
    rw [hf]
    show (Except.ok (joinPath dir (basename dc₂.filename), dc₂) :
        Except PyErr (String × Dicom)) = .ok (joinPath dir (basename dc.filename), dc₂)
    rw [hfn₂, hfn₁]

/-- Witness for C4: with an empty record, the directory template
`%(StudyDate)s` fails to resolve and yields an `"UNKNOWN"` segment, and the
failing filename template falls back to the original basename `f.dcm`. -/
theorem get_destination_fallbacks_witness :
    (Dicom.init "/in/f.dcm" ⟨[], "/in/f.dcm"⟩).get_destination "/out"
        [[Piece.tokS "StudyDate"]] [Piece.tokS "StudyDate"] =
      .ok ("/out/UNKNOWN/f.dcm", Dicom.init "/in/f.dcm" ⟨[], "/in/f.dcm"⟩) := by
  have h := get_destination_fallbacks.2.2 (Dicom.init "/in/f.dcm" ⟨[], "/in/f.dcm"⟩)
    "/out" [[Piece.tokS "StudyDate"]] [Piece.tokS "StudyDate"] "/out/UNKNOWN"
    (Dicom.init "/in/f.dcm" ⟨[], "/in/f.dcm"⟩) (Dicom.init "/in/f.dcm" ⟨[], "/in/f.dcm"⟩)
    (by decide) (by decide)
  rw [h]
  decide

/-! Collision-avoidance machinery shared by the write-path claims. -/

theorem addCopies_succ (d : String) (k : Nat) :
    addCopies d (k + 1) = addCopies (d ++ ".copy") k := rfl

theorem addCopies_length (d : String) (k : Nat) :
    (addCopies d k).length = d.length + 5 * k := by
  induction k generalizing d with
  | zero => simp [addCopies]
  | succ k ih =>
    have h5 : (".copy" : String).length = 5 := by decide
    rw [addCopies_succ, ih, String.length_append, h5]
    omega

theorem addCopies_injective (d : String) : Function.Injective (addCopies d) := by
  intro j k h
  have hl := congrArg String.length h
  rw [addCopies_length, addCopies_length] at hl
  omega

theorem mem_keys_of_lookup_eq_some {α : Type} (l : List (String × α)) (k : String) (v : α)
    (h : l.lookup k = some v) : k ∈ l.map Prod.fst := by
  by_contra hk
  rw [lookup_eq_none_of_not_mem_keys l k hk] at h
  cases h

theorem lookup_removeAssoc_ne {α : Type} (l : List (String × α)) (k k' : String)
    (h : k' ≠ k) : (removeAssoc l k).lookup k' = l.lookup k' := by
  induction l with
  | nil => rfl
  | cons hd tl ih =>
    obtain ⟨a, b⟩ := hd
    by_cases ha : a = k
    · show (List.filter (fun kv => !(kv.1 == k)) ((a, b) :: tl)).lookup k' = _
      rw [List.filter_cons_of_neg (by simp [ha])]
      rw [show List.filter (fun kv => !(kv.1 == k)) tl = removeAssoc tl k from rfl, ih]
      have hka : k' ≠ a := by
        rw [ha]
        exact h
      simp [List.lookup, beq_false_of_ne hka]
    · show (List.filter (fun kv => !(kv.1 == k)) ((a, b) :: tl)).lookup k' = _
      rw [List.filter_cons_of_pos (by simpa using ha)]
      by_cases hk : k' = a
      · simp [List.lookup, hk]
      · simp only [List.lookup, beq_false_of_ne hk]
        exact ih

theorem existsPath_mem (fs : FileSys) (p : String) (h : fs.existsPath p = true) :
    p ∈ fs.files.map Prod.fst ++ fs.dirs := by
  unfold FileSys.existsPath at h
  rcases Bool.or_eq_true_iff.mp h with h' | h'
  · obtain ⟨v, hv⟩ := Option.isSome_iff_exists.mp h'
    exact List.mem_append_left _ (mem_keys_of_lookup_eq_some fs.files p v hv)
  · exact List.mem_append_right _ (by simpa using h')

theorem exists_free_copy (fs : FileSys) (d : String) :
    ∃ k, k ≤ fs.files.length + fs.dirs.length ∧
      fs.existsPath (addCopies d k) = false := by
  by_contra hcon
  push_neg at hcon
  have hall : ∀ k, k ≤ fs.files.length + fs.dirs.length →
      fs.existsPath (addCopies d k) = true := by
    intro k hk
    have := hcon k hk
    cases hx : fs.existsPath (addCopies d k)
    · exact absurd hx this
    · rfl
  set n := fs.files.length + fs.dirs.length with hn
  set L := (List.range (n + 1)).map (addCopies d) with hL
  have hnodup : L.Nodup := List.Nodup.map (addCopies_injective d) (List.nodup_range _)
  have hsub : L ⊆ fs.files.map Prod.fst ++ fs.dirs := by
    intro x hx
    rw [hL, List.mem_map] at hx
    obtain ⟨k, hk, rfl⟩ := hx
    rw [List.mem_range] at hk
    exact existsPath_mem fs _ (hall k (by omega))
  have hlen : L.length ≤ (fs.files.map Prod.fst ++ fs.dirs).length :=
    (hnodup.subperm hsub).length_le
  rw [hL, List.length_map, List.length_range, List.length_append, List.length_map] at hlen
  omega

theorem findFreeDest_spec (fs : FileSys) :
    ∀ (fuel : Nat) (d : String),
      (∃ k, k < fuel ∧ fs.existsPath (addCopies d k) = false) →
      ∃ k, findFreeDest fs fuel d = some (addCopies d k) ∧
        fs.existsPath (addCopies d k) = false ∧
        ∀ j, j < k → fs.existsPath (addCopies d j) = true := by
  intro fuel
  induction fuel with
  | zero =>
    intro d ⟨k, hk, _⟩
    omega
  | succ fuel ih =>
    intro d ⟨k, hk, hfree⟩
    cases hex : fs.existsPath d with
    | false =>
      refine ⟨0, ?_, hex, fun j hj => absurd hj (by omega)⟩
      unfold findFreeDest
      rw [hex]
      simp [addCopies]
    | true =>
      have hk0 : k ≠ 0 := by
        intro h0
        subst h0
        rw [show addCopies d 0 = d from rfl] at hfree
        rw [hex] at hfree
        cases hfree
      obtain ⟨k', rfl⟩ : ∃ k', k = k' + 1 := ⟨k - 1, by omega⟩
      rw [addCopies_succ] at hfree
      obtain ⟨m, hfind, hmfree, hmall⟩ := ih (d ++ ".copy") ⟨k', by omega, hfree⟩
      refine ⟨m + 1, ?_, by rwa [addCopies_succ], fun j hj => ?_⟩
      · unfold findFreeDest
        rw [hex]
        simp only [if_pos rfl]
        rw [addCopies_succ]
        exact hfind
      · cases j with
        | zero => exact hex
        | succ j' =>
          rw [addCopies_succ]
          exact hmall j' (by omega)

theorem resolveDest_spec (fs : FileSys) (d : String) :
    ∃ k, resolveDest fs d = some (addCopies d k) ∧
      fs.existsPath (addCopies d k) = false ∧
      ∀ j, j < k → fs.existsPath (addCopies d j) = true := by
  obtain ⟨k, hk, hfree⟩ := exists_free_copy fs d
  exact findFreeDest_spec fs (fs.files.length + fs.dirs.length + 1) d ⟨k, by omega, hfree⟩

/-! Write-path lemmas shared by the collision and test-mode claims. -/

theorem mkdirP_files (fs : FileSys) (p : String) : (fs.mkdirP p).files = fs.files := rfl

theorem applyAnonFields_filename (l : List (String × Template)) (dc dca : Dicom)
    (h : applyAnonFields l dc = .ok dca) : dca.filename = dc.filename := by
  induction l generalizing dc with
  | nil =>
    injection h with h'
    rw [h']
  | cons kv rest ih =>
    obtain ⟨key, t⟩ := kv
    have hpf := recursive_replace_tokens_filename t dc
    unfold applyAnonFields at h
    cases hr : recursive_replace_tokens t dc with
    | mk r dc₁ =>
      rw [hr] at h hpf
      cases r with
      | error e =>
        have h' : (Except.error e : Except PyErr Dicom) = .ok dca := h
        cases h'
      | ok val =>
        have h' : (if dc₁.dicom.hasattr key then
            applyAnonFields rest { dc₁ with dicom := dc₁.dicom.setattr key (.str val) }
          else applyAnonFields rest dc₁) = .ok dca := h
        cases hhas : dc₁.dicom.hasattr key with
        | true =>
          rw [hhas] at h'
          simp only [if_true] at h'
          exact (ih _ h').trans hpf
        | false =>
          rw [hhas] at h'
          simp only [Bool.false_eq_true, if_false] at h'
          exact (ih _ h').trans hpf

theorem filenamePart_filename (dc : Dicom) (dir : String) (ff : Template) (s : String)
    (dc' : Dicom) (h : filenamePart dc dir ff = .ok (s, dc')) :
    dc'.filename = dc.filename := by
  have hpf := recursive_replace_tokens_filename ff dc
  unfold filenamePart at h
  cases hf : recursive_replace_tokens ff dc with
  | mk r dc₁ =>
    rw [hf] at h hpf
    cases r with
    | ok s' =>
      have h' : (Except.ok (joinPath dir (clean_path s'), dc₁) :
          Except PyErr (String × Dicom)) = .ok (s, dc') := h
      injection h' with h''
      injection h'' with h1 h2
      rw [h2] at hpf
      exact hpf
    | error e =>
      cases e with
      | attributeError =>
        have h' : (Except.ok (joinPath dir (basename dc₁.filename), dc₁) :
            Except PyErr (String × Dicom)) = .ok (s, dc') := h
        injection h' with h''
        injection h'' with h1 h2
        rw [h2] at hpf
        exact hpf
      | keyError =>
        have h' : (Except.error PyErr.keyError : Except PyErr (String × Dicom)) =
            .ok (s, dc') := h
        cases h'
      | typeError =>
        have h' : (Except.error PyErr.typeError : Except PyErr (String × Dicom)) =
            .ok (s, dc') := h
        cases h'
      | valueError =>
        have h' : (Except.error PyErr.valueError : Except PyErr (String × Dicom)) =
            .ok (s, dc') := h
        cases h'
      | indexError =>
        have h' : (Except.error PyErr.indexError : Except PyErr (String × Dicom)) =
            .ok (s, dc') := h
        cases h'
      | ioError =>
        have h' : (Except.error PyErr.ioError : Except PyErr (String × Dicom)) =
            .ok (s, dc') := h
        cases h'
      | fsLoopFuel =>
        have h' : (Except.error PyErr.fsLoopFuel : Except PyErr (String × Dicom)) =
            .ok (s, dc') := h
        cases h'

theorem computeDestination_filename (dc : Dicom) (root : String)
    (df : Option (List Template)) (fn : Template) (rd : List String) (d : String)
    (dc₁ : Dicom) (h : computeDestination dc root df fn rd = .ok (d, dc₁)) :
    dc₁.filename = dc.filename := by
  cases df with
  | none =>
    cases rd with
    | nil => cases h
    | cons r0 rest =>
      injection h with h'
      injection h' with h1 h2
      rw [h2]
  | some dfl =>
    have h' : dc.get_destination root dfl fn = .ok (d, dc₁) := h
    unfold Dicom.get_destination at h'
    cases hb : buildDirectory dfl root dc with
    | error e =>
      rw [hb] at h'
      cases h'
    | ok r =>
      obtain ⟨dir, dcm⟩ := r
      rw [hb] at h'
      have h'' : filenamePart dcm dir fn = .ok (d, dc₁) := h'
      exact (filenamePart_filename dcm dir fn d dc₁ h'').trans
        (buildDirectory_filename dfl root dc dir dcm hb)

theorem sortWriteStage_spec (dc : Dicom) (fs : FileSys) (dest : String) (ko : Bool)
    (out : SortResult) (hne : dc.filename ≠ dest)
    (h : sortWriteStage dc fs dest ko = .ok out) :
    (out.fs.files.lookup dest).isSome ∧
    (dc.is_anonymous = false → out.fs.files.lookup dest = fs.files.lookup dc.filename) ∧
    (∀ p v, p ≠ dc.filename → p ≠ dest → fs.files.lookup p = some v →
      out.fs.files.lookup p = some v) ∧
    (ko = true → ∀ p v, p ≠ dest → fs.files.lookup p = some v →
      out.fs.files.lookup p = some v) := by
  unfold sortWriteStage at h
  cases hanon : dc.is_anonymous with
  | true =>
    rw [hanon] at h
    simp only [if_true] at h
    cases happ : applyAnonFields dc.anondict dc with
    | error e =>
      rw [happ] at h
      cases h
    | ok dca =>
      rw [happ] at h
      have hfn : dca.filename = dc.filename := applyAnonFields_filename _ _ _ happ
      injection h with h'
      subst h'
      cases ko with
      | true =>
        refine ⟨?_, ?_, ?_, ?_⟩
        · simp [FileSys.write, lookup_setAssoc_self]
        · intro hfalse
          cases hfalse
        · intro p v hp hpd hv
          show ((setAssoc fs.files dest (.dicomData dca.dicom)).lookup p) = some v
          rw [lookup_setAssoc_ne _ _ _ _ hpd]
          exact hv
        · intro _ p v hpd hv
          show ((setAssoc fs.files dest (.dicomData dca.dicom)).lookup p) = some v
          rw [lookup_setAssoc_ne _ _ _ _ hpd]
          exact hv
      | false =>
        have hdne : dest ≠ dca.filename := by
          rw [hfn]
          exact fun hh => hne hh.symm
        refine ⟨?_, ?_, ?_, ?_⟩
        · show (((FileSys.remove (fs.write dest (.dicomData dca.dicom))
              dca.filename).files).lookup dest).isSome
          simp only [FileSys.remove, FileSys.write]
          rw [lookup_removeAssoc_ne _ _ _ hdne, lookup_setAssoc_self]
          rfl
        · intro hfalse
          cases hfalse
        · intro p v hp hpd hv
          show (((FileSys.remove (fs.write dest (.dicomData dca.dicom))
              dca.filename).files).lookup p) = some v
          simp only [FileSys.remove, FileSys.write]
          rw [lookup_removeAssoc_ne _ _ _ (hfn ▸ hp), lookup_setAssoc_ne _ _ _ _ hpd]
          exact hv
        · intro hko
          cases hko
  | false =>
    rw [hanon] at h
    simp only [Bool.false_eq_true, if_false] at h
    cases hread : fs.read dc.filename with
    | error e =>
      rw [hread] at h
      cases h
    | ok data =>
      rw [hread] at h
      have hlk : fs.files.lookup dc.filename = some data := by
        unfold FileSys.read at hread
        cases hl : fs.files.lookup dc.filename <;> rw [hl] at hread
        · cases hread
        · injection hread with h'
          rw [h']
      cases ko with
      | true =>
        simp only [if_true] at h
        injection h with h'
        subst h'
        refine ⟨?_, fun _ => ?_, ?_, ?_⟩
        · simp [FileSys.write, lookup_setAssoc_self]
        · show ((setAssoc fs.files dest data).lookup dest) = fs.files.lookup dc.filename
          rw [lookup_setAssoc_self, hlk]
        · intro p v hp hpd hv
          show ((setAssoc fs.files dest data).lookup p) = some v
          rw [lookup_setAssoc_ne _ _ _ _ hpd]
          exact hv
        · intro _ p v hpd hv
          show ((setAssoc fs.files dest data).lookup p) = some v
          rw [lookup_setAssoc_ne _ _ _ _ hpd]
          exact hv
      | false =>
        simp only [Bool.false_eq_true, if_false] at h
        injection h with h'
        subst h'
        have hdne : dest ≠ dc.filename := fun hh => hne hh.symm
        refine ⟨?_, fun _ => ?_, ?_, ?_⟩
        · show ((removeAssoc (setAssoc fs.files dest data) dc.filename).lookup dest).isSome
          rw [lookup_removeAssoc_ne _ _ _ hdne, lookup_setAssoc_self]
          rfl
        · show ((removeAssoc (setAssoc fs.files dest data) dc.filename).lookup dest) =
            fs.files.lookup dc.filename
          rw [lookup_removeAssoc_ne _ _ _ hdne, lookup_setAssoc_self, hlk]
        · intro p v hp hpd hv
          show ((removeAssoc (setAssoc fs.files dest data) dc.filename).lookup p) = some v
          rw [lookup_removeAssoc_ne _ _ _ hp, lookup_setAssoc_ne _ _ _ _ hpd]
          exact hv
        · intro hko
          cases hko

theorem sortRealStage_spec (dc : Dicom) (fs : FileSys) (d : String) (ko : Bool)
    (out : SortResult) (hsrc : (fs.files.lookup dc.filename).isSome = true)
    (h : sortRealStage dc fs d ko = .ok out) :
    ∃ k,
      (fs.mkdirP (dirnameP d)).existsPath (addCopies d k) = false ∧
      (∀ j, j < k → (fs.mkdirP (dirnameP d)).existsPath (addCopies d j) = true) ∧
      (out.fs.files.lookup (addCopies d k)).isSome ∧
      (dc.is_anonymous = false →
        out.fs.files.lookup (addCopies d k) = fs.files.lookup dc.filename) ∧
      (∀ p v, p ≠ dc.filename → fs.files.lookup p = some v →
        out.fs.files.lookup p = some v) ∧
      (ko = true → ∀ p v, fs.files.lookup p = some v → out.fs.files.lookup p = some v) := by
  obtain ⟨k, hrd, hfree, hall⟩ := resolveDest_spec (fs.mkdirP (dirnameP d)) d
  have h' : (match resolveDest (fs.mkdirP (dirnameP d)) d with
      | none => (.error .fsLoopFuel : Except PyErr SortResult)
      | some dest => sortWriteStage dc (fs.mkdirP (dirnameP d)) dest ko) = .ok out := h
  rw [hrd] at h'
  have h'' : sortWriteStage dc (fs.mkdirP (dirnameP d)) (addCopies d k) ko = .ok out := h'
  have hexf : (fs.mkdirP (dirnameP d)).existsPath dc.filename = true := by
    unfold FileSys.existsPath
    rw [mkdirP_files, hsrc]
    rfl
  have hne : dc.filename ≠ addCopies d k := by
    intro heq
    rw [heq] at hexf
    rw [hexf] at hfree
    cases hfree
  have hfs₁ : (fs.mkdirP (dirnameP d)).files = fs.files := rfl
  obtain ⟨hw1, hw2, hw3, hw4⟩ := sortWriteStage_spec dc (fs.mkdirP (dirnameP d))
    (addCopies d k) ko out hne h''
  have hnotdest : ∀ p v, fs.files.lookup p = some v → p ≠ addCopies d k := by
    intro p v hv heq
    have hmem : (fs.mkdirP (dirnameP d)).existsPath p = true := by
      unfold FileSys.existsPath
      rw [mkdirP_files, hv]
      rfl
    rw [heq] at hmem
    rw [hmem] at hfree
    cases hfree
  refine ⟨k, hfree, hall, hw1, ?_, ?_, ?_⟩
  · intro ha
    rw [hw2 ha, hfs₁]
  · intro p v hp hv
    exact hw3 p v hp (hnotdest p v hv) (by rw [hfs₁]; exact hv)
  · intro hko p v hv
    exact hw4 hko p v (hnotdest p v hv) (by rw [hfs₁]; exact hv)

/-- C6.  A non-test write never clobbers an existing path: the computed
destination gets `".copy"` appended exactly as long as the path exists, the
record is written to the first free suffixed path, every pre-existing file
other than the consumed source keeps its contents (all of them when
`keepOriginal` is set), and a non-anonymous write carries the source file's
bytes to the chosen destination. -/
theorem sortOp_collision_avoidance (dc : Dicom) (fs : FileSys) (root : String)
    (df : Option (List Template)) (fn : Template) (rd : List String) (ko : Bool)
    (out : SortResult) (hsrc : (fs.files.lookup dc.filename).isSome = true)
    (h : dc.sortOp fs root df fn false rd ko = .ok out) :
    ∃ d dc₁ k,
      computeDestination dc root df fn rd = .ok (d, dc₁) ∧
      (fs.mkdirP (dirnameP d)).existsPath (addCopies d k) = false ∧
      (∀ j, j < k → (fs.mkdirP (dirnameP d)).existsPath (addCopies d j) = true) ∧
      (out.fs.files.lookup (addCopies d k)).isSome ∧
      (dc₁.is_anonymous = false →
        out.fs.files.lookup (addCopies d k) = fs.files.lookup dc₁.filename) ∧
      (∀ p v, p ≠ dc₁.filename → fs.files.lookup p = some v →
        out.fs.files.lookup p = some v) ∧
      (ko = true → ∀ p v, fs.files.lookup p = some v → out.fs.files.lookup p = some v) := by
  unfold Dicom.sortOp at h
  cases hcd : computeDestination dc root df fn rd with
  | error e =>
    rw [hcd] at h
    cases h
  | ok r =>
    obtain ⟨d, dc₁⟩ := r
    rw [hcd] at h
    have h' : sortRealStage dc₁ fs d ko = .ok out := h
    have hfn : dc₁.filename = dc.filename :=
      computeDestination_filename dc root df fn rd d dc₁ hcd
    have hsrc₁ : (fs.files.lookup dc₁.filename).isSome = true := by
      rw [hfn]
      exact hsrc
    obtain ⟨k, h1, h2, h3, h4, h5, h6⟩ := sortRealStage_spec dc₁ fs d ko out hsrc₁ h'
    exact ⟨d, dc₁, k, rfl, h1, h2, h3, h4, h5, h6⟩

/-- Witness for C6: sorting `/src/f.dcm` into an output tree whose computed
destination `/out/f.dcm` is occupied writes `/out/f.dcm.copy` and leaves the
occupant and the source untouched. -/
theorem sortOp_collision_avoidance_witness :
    ∃ d dc₁ k,
      computeDestination (Dicom.init "/src/f.dcm" ⟨[], "/src/f.dcm"⟩) "/out" none []
          ["/src"] = .ok (d, dc₁) ∧
      (FileSys.mkdirP ⟨[("/src/f.dcm", .blob 0), ("/out/f.dcm", .blob 1)], []⟩
          (dirnameP d)).existsPath (addCopies d k) = false ∧
      (∀ j, j < k →
        (FileSys.mkdirP ⟨[("/src/f.dcm", .blob 0), ("/out/f.dcm", .blob 1)], []⟩
          (dirnameP d)).existsPath (addCopies d j) = true) ∧
      ((SortResult.mk none
          ⟨[("/src/f.dcm", .blob 0), ("/out/f.dcm", .blob 1), ("/out/f.dcm.copy", .blob 0)],
            ["", "/out"]⟩
          (Dicom.init "/src/f.dcm" ⟨[], "/src/f.dcm"⟩)).fs.files.lookup
        (addCopies d k)).isSome ∧
      (dc₁.is_anonymous = false →
        (SortResult.mk none
          ⟨[("/src/f.dcm", .blob 0), ("/out/f.dcm", .blob 1), ("/out/f.dcm.copy", .blob 0)],
            ["", "/out"]⟩
          (Dicom.init "/src/f.dcm" ⟨[], "/src/f.dcm"⟩)).fs.files.lookup (addCopies d k) =
        (⟨[("/src/f.dcm", .blob 0), ("/out/f.dcm", .blob 1)], []⟩ :
          FileSys).files.lookup dc₁.filename) ∧
      (∀ p v, p ≠ dc₁.filename →
        (⟨[("/src/f.dcm", .blob 0), ("/out/f.dcm", .blob 1)], []⟩ :
          FileSys).files.lookup p = some v →
        (SortResult.mk none
          ⟨[("/src/f.dcm", .blob 0), ("/out/f.dcm", .blob 1), ("/out/f.dcm.copy", .blob 0)],
            ["", "/out"]⟩
          (Dicom.init "/src/f.dcm" ⟨[], "/src/f.dcm"⟩)).fs.files.lookup p = some v) ∧
      (true = true → ∀ p v,
        (⟨[("/src/f.dcm", .blob 0), ("/out/f.dcm", .blob 1)], []⟩ :
          FileSys).files.lookup p = some v →
        (SortResult.mk none
          ⟨[("/src/f.dcm", .blob 0), ("/out/f.dcm", .blob 1), ("/out/f.dcm.copy", .blob 0)],
            ["", "/out"]⟩
          (Dicom.init "/src/f.dcm" ⟨[], "/src/f.dcm"⟩)).fs.files.lookup p = some v) := by
  exact sortOp_collision_avoidance (Dicom.init "/src/f.dcm" ⟨[], "/src/f.dcm"⟩)
    ⟨[("/src/f.dcm", .blob 0), ("/out/f.dcm", .blob 1)], []⟩ "/out" none [] ["/src"] true
    (SortResult.mk none
      ⟨[("/src/f.dcm", .blob 0), ("/out/f.dcm", .blob 1), ("/out/f.dcm.copy", .blob 0)],
        ["", "/out"]⟩
      (Dicom.init "/src/f.dcm" ⟨[], "/src/f.dcm"⟩))
    (by decide) (by decide)

/-! Claim C7: test mode. -/

/-- Counterexample to C7 as stated: with the computed destination `/out/f.dcm`
already occupied, test mode reports `/out/f.dcm` (the pre-collision computed
destination) while the real run writes to `/out/f.dcm.copy` and leaves the
reported path's occupant unchanged — so the reported destination is not "the
destination a real run would use". -/
theorem sortOp_test_vs_real_counterexample :
    (Dicom.init "/src/f.dcm" ⟨[], "/src/f.dcm"⟩).sortOp
        ⟨[("/src/f.dcm", .blob 0), ("/out/f.dcm", .blob 1)], []⟩ "/out" none [] true
        ["/src"] true =
      .ok ⟨some "/out/f.dcm", ⟨[("/src/f.dcm", .blob 0), ("/out/f.dcm", .blob 1)], []⟩,
        Dicom.init "/src/f.dcm" ⟨[], "/src/f.dcm"⟩⟩ ∧
    ((Dicom.init "/src/f.dcm" ⟨[], "/src/f.dcm"⟩).sortOp
        ⟨[("/src/f.dcm", .blob 0), ("/out/f.dcm", .blob 1)], []⟩ "/out" none [] false
        ["/src"] true).map
      (fun o => (o.fs.files.lookup "/out/f.dcm", o.fs.files.lookup "/out/f.dcm.copy")) =
      .ok (some (.blob 1), some (.blob 0)) ∧
    ("/out/f.dcm" : String) ≠ "/out/f.dcm.copy" := by
  refine ⟨by decide, by decide, by decide⟩

/-- C7 (amended).  Test mode reports exactly the computed (pre-collision)
destination and leaves the filesystem untouched — no directory created, no
file written, none deleted; the real run on the same inputs computes the same
destination and, when that destination is not already occupied, writes
exactly there (when occupied it writes to a `".copy"`-suffixed variant
instead, which is where the two runs differ). -/
theorem sortOp_testmode (dc : Dicom) (fs : FileSys) (root : String)
    (df : Option (List Template)) (fn : Template) (rd : List String) (ko : Bool)
    (d : String) (dc₁ : Dicom)
    (hcd : computeDestination dc root df fn rd = .ok (d, dc₁)) :
    dc.sortOp fs root df fn true rd ko = .ok ⟨some d, fs, dc₁⟩ ∧
    ((fs.mkdirP (dirnameP d)).existsPath d = false →
      (fs.files.lookup dc.filename).isSome = true →
      ∀ out, dc.sortOp fs root df fn false rd ko = .ok out →
        (out.fs.files.lookup d).isSome) := by
  constructor
  · unfold Dicom.sortOp
    rw [hcd]
    rfl
  · intro hex hsrc out hrun
    unfold Dicom.sortOp at hrun
    rw [hcd] at hrun
    have h' : sortRealStage dc₁ fs d ko = .ok out := hrun
    have hfn : dc₁.filename = dc.filename :=
      computeDestination_filename dc root df fn rd d dc₁ hcd
    have hsrc₁ : (fs.files.lookup dc₁.filename).isSome = true := by
      rw [hfn]
      exact hsrc
    obtain ⟨k, hfree, hall, hw1, _, _, _⟩ := sortRealStage_spec dc₁ fs d ko out hsrc₁ h'
    have hk0 : k = 0 := by
      by_contra hk
      have h0 := hall 0 (by omega)
      rw [show addCopies d 0 = d from rfl] at h0
      rw [h0] at hex
      cases hex
    rw [hk0] at hw1
    exact hw1

/-- Witness for C7 (amended): a test-mode run over a mirror-mode Job reports
the computed destination `/o/a` and returns the filesystem unchanged. -/
theorem sortOp_testmode_witness :
    (Dicom.init "/s/a" ⟨[], "/s/a"⟩).sortOp ⟨[("/s/a", .blob 0)], []⟩ "/o" none [] true
        ["/s"] true =
      .ok ⟨some "/o/a", ⟨[("/s/a", .blob 0)], []⟩, Dicom.init "/s/a" ⟨[], "/s/a"⟩⟩ :=
  (sortOp_testmode (Dicom.init "/s/a" ⟨[], "/s/a"⟩) ⟨[("/s/a", .blob 0)], []⟩ "/o" none []
    ["/s"] true "/o/a" (Dicom.init "/s/a" ⟨[], "/s/a"⟩) (by decide)).1

/-! Claim C8: mirror mode. -/

/-- Counterexample to C8 as stated: with source roots `["/a", "/b"]`, the
item `/b/x.dcm` enumerated under the second root `/b` is relativized against
`rootdir[0] = "/a"`, giving `/out/../b/x.dcm` instead of the claimed
`/out/x.dcm`. -/
theorem mirror_mode_counterexample :
    underRoot "/b" "/b/x.dcm" = true ∧
    computeDestination (Dicom.init "/b/x.dcm" ⟨[], "/b/x.dcm"⟩) "/out" none []
        ["/a", "/b"] =
      .ok ("/out/../b/x.dcm", Dicom.init "/b/x.dcm" ⟨[], "/b/x.dcm"⟩) ∧
    mirrorDestSpec "/out" "/b" "/b/x.dcm" = "/out/x.dcm" ∧
    ("/out/../b/x.dcm" : String) ≠ "/out/x.dcm" := by
  refine ⟨by decide, by decide, by decide, by decide⟩

/-- C8 (amended).  In mirror mode the destination is always the output root
joined with the item's path made relative to the FIRST configured source
root (`rootdir[0]`), which coincides with the specified behaviour only for
items enumerated under that first root. -/
theorem mirror_mode_first_root (dc : Dicom) (root : String) (fn : Template)
    (r0 : String) (rest : List String) :
    computeDestination dc root none fn (r0 :: rest) =
      .ok (mirrorDestSpec root r0 dc.filename, dc) := rfl

/-! Claim C5: queue exhaustion and the progress counter. -/

theorem heldItems_append (w₁ w₂ : List WPhase) :
    heldItems (w₁ ++ w₂) = heldItems w₁ ++ heldItems w₂ :=
  List.filterMap_append _ _ _

theorem heldItems_middle_running (w₁ w₂ : List WPhase) :
    heldItems (w₁ ++ .running :: w₂) = heldItems w₁ ++ heldItems w₂ := by
  rw [heldItems_append]
  rfl

theorem heldItems_middle_terminated (w₁ w₂ : List WPhase) :
    heldItems (w₁ ++ .terminated :: w₂) = heldItems w₁ ++ heldItems w₂ := by
  rw [heldItems_append]
  rfl

theorem heldItems_middle_holding (w₁ w₂ : List WPhase) (x : String) :
    heldItems (w₁ ++ .holding x :: w₂) = heldItems w₁ ++ x :: heldItems w₂ := by
  rw [heldItems_append]
  rfl

theorem heldItems_replicate_running (w : Nat) :
    heldItems (List.replicate w .running) = [] := by
  induction w with
  | zero => rfl
  | succ w ih =>
    rw [List.replicate_succ]
    show heldItems (.running :: List.replicate w .running) = []
    simp only [heldItems, List.filterMap_cons]
    exact ih

theorem shuffle_dequeue (pr h₁ h₂ q : List String) (x : String) :
    (pr ++ (h₁ ++ x :: h₂) ++ q).Perm (pr ++ (h₁ ++ h₂) ++ (x :: q)) := by
  have hmid : (x :: h₂) ++ q = x :: (h₂ ++ q) := by rw [List.cons_append]
  have base : ((h₁ ++ x :: h₂) ++ q).Perm ((h₁ ++ h₂) ++ (x :: q)) := by
    rw [List.append_assoc, List.append_assoc]
    exact List.Perm.append_left h₁ (by rw [hmid]; exact List.perm_middle.symm)
  have e₁ : pr ++ (h₁ ++ x :: h₂) ++ q = pr ++ ((h₁ ++ x :: h₂) ++ q) := by
    rw [List.append_assoc]
  have e₂ : pr ++ (h₁ ++ h₂) ++ (x :: q) = pr ++ ((h₁ ++ h₂) ++ (x :: q)) := by
    rw [List.append_assoc]
  rw [e₁, e₂]
  exact List.Perm.append_left pr base

theorem shuffle_finish (pr h₁ h₂ q : List String) (x : String) :
    ((pr ++ [x]) ++ (h₁ ++ h₂) ++ q).Perm (pr ++ (h₁ ++ x :: h₂) ++ q) := by
  have hmid : ([x] ++ (h₁ ++ h₂)).Perm (h₁ ++ x :: h₂) := by
    rw [List.singleton_append]
    exact List.perm_middle.symm
  rw [List.append_assoc pr [x] (h₁ ++ h₂)]
  exact List.Perm.append_right q (List.Perm.append_left pr hmid)

/-- Inductive invariant of a Job run: the processed, held and queued items
are together a permutation of the enumerated items; the counter counts the
processed items (no worker having crashed); and a fully terminated pool
implies an empty queue. -/
def JobInv (oc : String → ItemOutcome) (items : List String) (s : RunState) : Prop :=
  (s.processed ++ heldItems s.workers ++ s.queue).Perm items ∧
  s.counter = s.processed.length ∧
  (allTerminated s → s.queue = [])

theorem jobStep_inv (oc : String → ItemOutcome) (items : List String)
    (hnf : ∀ x ∈ items, oc x ≠ ItemOutcome.failed)
    {s s' : RunState} (hstep : JobStep oc s s') (hinv : JobInv oc items s) :
    JobInv oc items s' := by
  obtain ⟨hperm, hcount, _⟩ := hinv
  cases hstep with
  | dequeue x q c w₁ w₂ pr =>
    rw [heldItems_middle_running] at hperm
    refine ⟨?_, hcount, ?_⟩
    · rw [heldItems_middle_holding]
      exact (shuffle_dequeue pr (heldItems w₁) (heldItems w₂) q x).trans hperm
    · intro hat
      have hmem : WPhase.holding x ∈ w₁ ++ WPhase.holding x :: w₂ :=
        List.mem_append.mpr (Or.inr (List.mem_cons_self _ _))
      cases hat _ hmem
  | terminate c w₁ w₂ pr =>
    rw [heldItems_middle_running] at hperm
    refine ⟨?_, hcount, fun _ => rfl⟩
    rw [heldItems_middle_terminated]
    exact hperm
  | finish x q c w₁ w₂ pr h =>
    rw [heldItems_middle_holding] at hperm
    refine ⟨?_, ?_, ?_⟩
    · rw [heldItems_middle_running]
      exact (shuffle_finish pr (heldItems w₁) (heldItems w₂) q x).trans hperm
    · have hc : c = pr.length := hcount
      show c + 1 = (pr ++ [x]).length
      rw [List.length_append, List.length_singleton, hc]
    · intro hat
      have hmem : WPhase.running ∈ w₁ ++ WPhase.running :: w₂ :=
        List.mem_append.mpr (Or.inr (List.mem_cons_self _ _))
      cases hat _ hmem
  | crash x q c w₁ w₂ pr h =>
    have hx : x ∈ pr ++ heldItems (w₁ ++ .holding x :: w₂) ++ q := by
      rw [heldItems_middle_holding]
      simp
    exact absurd h (hnf x (hperm.subset hx))

theorem jobInv_init (oc : String → ItemOutcome) (items : List String) (w : Nat)
    (hW : 1 ≤ w) : JobInv oc items (initRun items w) := by
  refine ⟨?_, rfl, ?_⟩
  · show (([] : List String) ++ heldItems (List.replicate w .running) ++ items).Perm items
    rw [heldItems_replicate_running]
    simp
  · intro hat
    have hrun : WPhase.running ∈ List.replicate w WPhase.running :=
      List.mem_replicate.mpr ⟨by omega, rfl⟩
    cases hat _ hrun

theorem jobInv_reach (oc : String → ItemOutcome) (items : List String) (w : Nat)
    (hW : 1 ≤ w) (hnf : ∀ x ∈ items, oc x ≠ ItemOutcome.failed) (s : RunState)
    (h : JobReach oc (initRun items w) s) : JobInv oc items s := by
  induction h with
  | refl => exact jobInv_init oc items w hW
  | tail hr hstep ih => exact jobStep_inv oc items hnf hstep ih

/-- Counterexample to C5 as stated: with two enumerated items, one worker
(`W ≤ N` holds) and the first item failing, the exception escapes
`sort_image` and terminates the worker (`run` catches only `Queue.Empty`):
the reachable all-terminated state has counter 0 ≠ 2 and the second item
still queued. -/
theorem job_failed_item_counterexample :
    ∃ s, JobReach (fun x => if x = "a" then ItemOutcome.failed else ItemOutcome.done)
        (initRun ["a", "b"] 1) s ∧
      allTerminated s ∧ (1 : Nat) ≤ 1 ∧ (1 : Nat) ≤ 2 ∧
      ¬(s.counter = 2 ∧ s.queue = []) := by
  refine ⟨⟨["b"], 0, [.terminated], ["a"]⟩, ?_, ?_, by omega, by omega, by decide⟩
  · have h1 : JobStep (fun x => if x = "a" then ItemOutcome.failed else ItemOutcome.done)
        (initRun ["a", "b"] 1) ⟨["b"], 0, [.holding "a"], []⟩ :=
      JobStep.dequeue "a" ["b"] 0 [] [] []
    have h2 : JobStep (fun x => if x = "a" then ItemOutcome.failed else ItemOutcome.done)
        ⟨["b"], 0, [.holding "a"], []⟩ ⟨["b"], 0, [.terminated], ["a"]⟩ :=
      JobStep.crash "a" ["b"] 0 [] [] [] (by decide)
    exact Relation.ReflTransGen.tail (Relation.ReflTransGen.tail Relation.ReflTransGen.refl h1) h2
  · intro p hp
    simp only [List.mem_singleton] at hp
    rw [hp]

/-- C5 (amended).  Provided no item's processing raises an uncaught exception
(items only complete or are skipped — a crash kills its worker without
incrementing the counter), every execution of the pool that ends with all
workers terminated has consumed each enumerated item exactly once, left the
queue empty, and advanced the progress counter to exactly `N`. -/
theorem job_queue_exhaustion (oc : String → ItemOutcome) (items : List String) (w : Nat)
    (s : RunState) (hW1 : 1 ≤ w) (hWN : w ≤ items.length)
    (hnf : ∀ x ∈ items, oc x ≠ ItemOutcome.failed)
    (hreach : JobReach oc (initRun items w) s) (hterm : allTerminated s) :
    s.counter = items.length ∧ s.queue = [] ∧ s.processed.Perm items := by
  obtain ⟨hperm, hcount, hqt⟩ := jobInv_reach oc items w hW1 hnf s hreach
  have hq : s.queue = [] := hqt hterm
  have hheld : heldItems s.workers = [] := by
    refine List.filterMap_eq_nil_iff.mpr (fun p hp => ?_)
    rw [hterm p hp]
  rw [hq, hheld] at hperm
  simp only [List.append_nil] at hperm
  exact ⟨hcount.trans hperm.length_eq, hq, hperm⟩

/-- Witness for C5 (amended): one worker drains a one-item queue — dequeue,
finish, observe empty queue, terminate — ending with counter 1 and the item
processed once. -/
theorem job_queue_exhaustion_witness :
    (RunState.mk [] 1 [.terminated] ["a"]).counter = (["a"] : List String).length ∧
    (RunState.mk [] 1 [.terminated] ["a"]).queue = [] ∧
    (RunState.mk [] 1 [.terminated] ["a"]).processed.Perm ["a"] := by
  refine job_queue_exhaustion (fun _ => ItemOutcome.done) ["a"] 1
    ⟨[], 1, [.terminated], ["a"]⟩ (by decide) (by decide) (fun x _ => by simp) ?_ ?_
  · have h1 : JobStep (fun _ => ItemOutcome.done) (initRun ["a"] 1)
        ⟨[], 0, [.holding "a"], []⟩ :=
      JobStep.dequeue "a" [] 0 [] [] []
    have h2 : JobStep (fun _ => ItemOutcome.done) ⟨[], 0, [.holding "a"], []⟩
        ⟨[], 1, [.running], ["a"]⟩ :=
      JobStep.finish "a" [] 0 [] [] [] (by decide)
    have h3 : JobStep (fun _ => ItemOutcome.done) ⟨[], 1, [.running], ["a"]⟩
        ⟨[], 1, [.terminated], ["a"]⟩ :=
      JobStep.terminate 1 [] [] ["a"]
    exact Relation.ReflTransGen.tail (Relation.ReflTransGen.tail
      (Relation.ReflTransGen.tail Relation.ReflTransGen.refl h1) h2) h3
  · intro p hp
    simp only [List.mem_singleton] at hp
    rw [hp]

end DicomSort
